import Mathlib

/-!
Verification development for the simcradarlib repository (ARPA-SIMC).

The definitions below are a shallow embedding, translated from the Python
source, of the parts of the library the claims are about:

* `Bufr.get_octect` and `Bufr._check_emptyfield`
  (src/simcradarlib/io_utils/bufr_class.py),
* the level-reconstruction and variable selection of
  `Bufr.get_var_levs_from_meta`,
* `Bufr.get_datetime_from_meta`,
* the skeleton of `Bufr.read_bufr`,
* the ODIM polar-volume hierarchy (`OdimHierarchyPvol.setistance`,
  `export_odim`, `read_odim`, `get_data_by_elangle`,
  src/simcradarlib/odim/odim_pvol.py),
* the string-attribute encodings (`np.bytes_` as used by
  `OdimGroup.odim_setattrs`, and `formatstr` of odim_operations.py).

Python strings are modelled as `List Char` where character-indexed slicing
matters and as `String` elsewhere; Python floats are modelled as `ℚ`
(the claims involve only exact decimal values, equality tests and linear
gain/offset arithmetic, no rounding); numpy arrays as nested lists;
fallible Python code as `Except PyErr`.
-/

deriving instance DecidableEq for Except

namespace SimcRadar

/-- Python exception outcomes relevant to the modelled code paths. -/
inductive PyErr where
  | valueError (msg : String)
  | indexError
  | keyError (attr : String)
  | typeError
  | nameError (nm : String)
  | attributeError (attr : String)
  | assertionError
  | exceptionMsg (msg : String)
  deriving Repr, DecidableEq

/-- Python positional indexing `l[i]` on a list: IndexError when out of range. -/
def pyGet {α : Type} (l : List α) (i : Nat) : Except PyErr α :=
  match l[i]? with
  | some a => .ok a
  | none => .error .indexError

/-- Position of the first occurrence of `a` in a list (length when absent). -/
def pyIdxOf {α : Type} [DecidableEq α] (a : α) : List α → Nat
  | [] => 0
  | b :: t => if b = a then 0 else pyIdxOf a t + 1

/-- Python `list.index(a)`: first position of `a`, ValueError when absent. -/
def pyListIndex {α : Type} [DecidableEq α] (l : List α) (a : α) : Except PyErr Nat :=
  if a ∈ l then .ok (pyIdxOf a l) else .error (.valueError "x not in list")

/-- Python numeric coercion of an Optional float attribute: TypeError when
the value is None (e.g. None used in arithmetic). -/
def pyNum (v : Option ℚ) : Except PyErr ℚ :=
  match v with
  | some x => .ok x
  | none => .error .typeError

/-- Sequencing of a fallible operation over a list (first failure wins). -/
def mapExcept {α β : Type} (f : α → Except PyErr β) : List α → Except PyErr (List β)
  | [] => .ok []
  | a :: t => do
    let b ← f a
    let r ← mapExcept f t
    .ok (b :: r)

/-- Access of a mandatory h5py attribute: KeyError when it is absent. -/
def reqAttr {α : Type} (nm : String) (v : Option α) : Except PyErr α :=
  match v with
  | some a => .ok a
  | none => .error (.keyError nm)

/-- Access of a Python instance attribute: AttributeError when never assigned. -/
def pyAttr {α : Type} (nm : String) (v : Option α) : Except PyErr α :=
  match v with
  | some a => .ok a
  | none => .error (.attributeError nm)

/-- Python `assert`: AssertionError when the condition fails. -/
def pyAssert (c : Prop) [Decidable c] : Except PyErr Unit :=
  if c then .ok () else .error .assertionError

/-! Text primitives used by the BUFR metadata decoder. -/

/-- Whitespace characters removed by Python `str.strip()`. -/
def isPySpace (c : Char) : Bool :=
  c == ' ' || c == '\t' || c == '\n' || c == '\r' || c == '\x0b' || c == '\x0c'

/-- Left part of Python `str.strip()`. -/
def pstripL (l : List Char) : List Char := l.dropWhile isPySpace

/-- Python `str.strip()`: remove leading and trailing whitespace. -/
def pstrip (l : List Char) : List Char :=
  ((l.dropWhile isPySpace).reverse.dropWhile isPySpace).reverse

/-- Python slice `l[a:b]` on a string, character-indexed. -/
def pySlice (l : List Char) (a b : Nat) : List Char := (l.drop a).take (b - a)

/-- Python slice `l[a:]` on a string. -/
def pySliceFrom (l : List Char) (a : Nat) : List Char := l.drop a

/-- Model of `Bufr._check_emptyfield`: None for the empty string. -/
def checkEmptyfield (l : List Char) : Option (List Char) :=
  if l = [] then none else some l

/-- Model of `Bufr.get_octect` (bufr_class.py lines 79-147): fixed-column
split of one metadata line into the 8 components
`[f_, x_, y_, value, id5, id6, id7, descriptor]`, empty fields normalized
to None by `_check_emptyfield`. -/
def getOctect (line : List Char) : List (Option (List Char)) :=
  let f_ := pstrip (pySlice line 0 2)
  let x_ := pstrip (pySlice line 2 5)
  let y_ := pstrip (pySlice line 5 9)
  let octect :=
    if f_ = "3".toList ∧ x_ = "21".toList ∧ y_ = "193".toList then
      [f_, x_, y_, pstrip (pySliceFrom line 9), [], [], [], "namefile".toList]
    else
      [f_, x_, y_, pstrip (pySlice line 9 23), pstrip (pySlice line 23 27),
        pstrip (pySlice line 27 32), pstrip (pySlice line 32 35),
        pstrip (pySliceFrom line 35)]
  octect.map checkEmptyfield

/-- Record view of one decoded BUFR metadata line (spec wording). -/
structure OctRecord where
  F : Option (List Char)
  X : Option (List Char)
  Y : Option (List Char)
  value : Option (List Char)
  id5 : Option (List Char)
  id6 : Option (List Char)
  id7 : Option (List Char)
  descriptor : Option (List Char)
  deriving Repr, DecidableEq

/-- Normalization used in the spec wording: trim, and an empty result is unset. -/
def normField (l : List Char) : Option (List Char) :=
  if pstrip l = [] then none else some (pstrip l)

/-- Specification-side description of the decodeLine column layout, written
from the spec sentence: F=[0,2), X=[2,5), Y=[5,9), then normally
value=[9,23), id5=[23,27), id6=[27,32), id7=[32,35), descriptor=[35,end);
on the exception triple ("3","21","193") value=[9,end), id5/id6/id7 unset,
descriptor="namefile". -/
def octectSpec (line : List Char) : OctRecord :=
  if pstrip (pySlice line 0 2) = "3".toList ∧ pstrip (pySlice line 2 5) = "21".toList ∧
      pstrip (pySlice line 5 9) = "193".toList then
    { F := normField (pySlice line 0 2)
      X := normField (pySlice line 2 5)
      Y := normField (pySlice line 5 9)
      value := normField (pySliceFrom line 9)
      id5 := none
      id6 := none
      id7 := none
      descriptor := some "namefile".toList }
  else
    { F := normField (pySlice line 0 2)
      X := normField (pySlice line 2 5)
      Y := normField (pySlice line 5 9)
      value := normField (pySlice line 9 23)
      id5 := normField (pySlice line 23 27)
      id6 := normField (pySlice line 27 32)
      id7 := normField (pySlice line 32 35)
      descriptor := normField (pySliceFrom line 35) }

/-! String attribute encodings (claim about ASCII byte length). -/

/-- Latin-1 byte encoding of a Python string (all attribute contents in the
modelled code are ASCII, where latin-1 is the identity on code points). -/
def latin1Bytes (s : String) : List Nat := s.toList.map Char.toNat

/-- Fixed-length numpy byte-string value: the stored bytes and the declared
item size of the dtype actually written to the HDF5 attribute. -/
structure NpFixedStr where
  bytes : List Nat
  itemsize : Nat
  deriving Repr, DecidableEq

/-- Model of `np.bytes_(s)` as used by `OdimGroup.odim_setattrs` and
`OdimDset8bImage.odim_setattrs` (odim_utils.py): a fixed-length byte
string whose item size is exactly the byte length of the content. -/
def npBytesAttr (s : String) : NpFixedStr :=
  ⟨latin1Bytes s, (latin1Bytes s).length⟩

/-- Model of `formatstr` (odim_operations.py lines 6-15):
np.array(mystring.encode(latin-1), S(len+1)), i.e. the content padded with
one NUL to a declared item size of len(mystring)+1. -/
def formatstr (s : String) : NpFixedStr :=
  let lenstr1 := s.length + 1
  ⟨latin1Bytes s ++ List.replicate (lenstr1 - (latin1Bytes s).length) 0, lenstr1⟩

/-! Decimal parsing, modelling Python float() on the plain decimal numerals
occurring in decbufr metadata tables (optional sign, digits, optional
fractional part; the tables contain no exponent notation). -/

/-- Accumulating decimal-digit evaluator; fails on a non-digit. -/
def digitsValAux : List Char → Nat → Option Nat
  | [], acc => some acc
  | c :: t, acc => if c.isDigit then digitsValAux t (acc * 10 + (c.toNat - 48)) else none

/-- Value of a nonempty all-digit string. -/
def digitsVal (l : List Char) : Option Nat :=
  match l with
  | [] => none
  | _ => digitsValAux l 0

/-- Split at the first dot, if any. -/
def splitDot : List Char → List Char × Option (List Char)
  | [] => ([], none)
  | c :: t =>
    if c = '.' then ([], some t)
    else
      let p := splitDot t
      (c :: p.1, p.2)

/-- Unsigned decimal numeral to a rational. -/
def parseUQ (l : List Char) : Option ℚ :=
  match splitDot l with
  | (ip, none) => (digitsVal ip).map (fun n => (n : ℚ))
  | (ip, some fp) =>
    if ip = [] ∧ fp = [] then none
    else do
      let a ← if ip = [] then some 0 else digitsVal ip
      let b ← if fp = [] then some 0 else digitsVal fp
      some ((a : ℚ) + (b : ℚ) / ((10 : ℚ) ^ fp.length))

/-- Signed decimal numeral to a rational. -/
def parseQ (l : List Char) : Option ℚ :=
  match l with
  | '-' :: t => (parseUQ t).map (fun q => -q)
  | '+' :: t => parseUQ t
  | _ => parseUQ l

/-- Truncation toward zero, modelling Python int() applied to a float. -/
def ratTrunc (q : ℚ) : ℤ := if 0 ≤ q then ⌊q⌋ else ⌈q⌉

/-- Model of Python float(v) on an optional table value: TypeError on None,
ValueError on a non-numeral. -/
def pyFloat (v : Option String) : Except PyErr ℚ :=
  match v with
  | none => .error .typeError
  | some s =>
    match parseQ s.toList with
    | some q => .ok q
    | none => .error (.valueError "could not convert string to float")

/-- Model of Python int(float(v)). -/
def pyFloatInt (v : Option String) : Except PyErr ℤ :=
  (pyFloat v).map ratTrunc

/-! BUFR metadata table and its extractors. -/

/-- Row of the decoded metadata DataFrame built by `Bufr.read_meta`. -/
structure BufrRow where
  F : Option String
  X : Option String
  Y : Option String
  value : Option String
  id5 : Option String := none
  id6 : Option String := none
  id7 : Option String := none
  descriptor : Option String := none
  deriving Repr, DecidableEq

/-- Position of the first row matching an (F,X,Y) descriptor triple,
modelling `meta.loc[(meta.F == f) & (meta.X == x) & (meta.Y == y)].index.values[0]`. -/
def findTriple (t : List BufrRow) (f x y : String) : Option Nat :=
  t.findIdx? (fun r => decide (r.F = some f ∧ r.X = some x ∧ r.Y = some y))

/-- Variable record kinds selected by `Bufr.get_var_levs_from_meta`
(rad_var_class.py). -/
inductive VarKind where
  | structVariable
  | varZ
  | varPrmm
  | varCumPrmm
  deriving Repr, DecidableEq

/-- Value of the `name` attribute of each variable record kind. -/
def varKindName : VarKind → Option String
  | .structVariable => none
  | .varZ => some "Z"
  | .varPrmm => some "pr_mm"
  | .varCumPrmm => some "cum_pr_mm"

/-- Value of the `missing` attribute of each variable record kind. -/
def varKindMissing : VarKind → Option ℚ
  | .structVariable => none
  | .varZ => some (-70)
  | .varPrmm => some (-1)
  | .varCumPrmm => some (-1)

/-! Level reconstruction of `Bufr.get_var_levs_from_meta`
(bufr_class.py lines 820-854). -/

/-- Model of the numpy assignment levels[1:] = levels[0:-1] (fill method min). -/
def shiftMin (l : List ℚ) : List ℚ :=
  match l with
  | [] => []
  | h :: _ => h :: l.dropLast

/-- Midpoints of adjacent pairs, i.e. np.mean(levels[i : i+2]) for each i. -/
def pairMids : List ℚ → List ℚ
  | a :: b :: t => (a + b) / 2 :: pairMids (b :: t)
  | _ => []

/-- Model of the numpy assignment levels[1:] = adjacent midpoints (fill method ave). -/
def aveFill (l : List ℚ) : List ℚ :=
  match l with
  | [] => []
  | h :: _ => h :: pairMids l

/-- Fill-method dispatch of get_var_levs_from_meta: min, ave, max in source
order, any other value raises. -/
def applyFillMethod (m : String) (l : List ℚ) : Except PyErr (List ℚ) :=
  if m = "min" then .ok (shiftMin l)
  else if m = "ave" then .ok (aveFill l)
  else if m = "max" then .ok l
  else .error (.exceptionMsg "Parametro fill_method passato in modo scorretto. Esco")

/-- Model of the assignment levels[0] = low_bounds (no effect on an empty
array is unreachable in the source, where levels always holds the marker
row value). -/
def forceFirst (q : ℚ) : List ℚ → List ℚ
  | [] => []
  | _ :: t => q :: t

/-- Final level array of get_var_levs_from_meta: the first element is forced
to the lower bound, then the fill-method transform is applied. -/
def levelsFinal (m : String) (low : ℚ) (readLevs : List ℚ) : Except PyErr (List ℚ) :=
  applyFillMethod m (forceFirst low readLevs)

/-- Model of `Bufr.get_var_levs_from_meta` (bufr_class.py lines 736-854).
The parameter `ec` is the `emission_center` attribute of `self.source`
(None when the attribute was never assigned, in which case accessing it
raises AttributeError, as in the source where the DPC-patch condition
always evaluates `self.source.emission_center` first). -/
def getVarLevs (ec : Option String) (t : List BufrRow) (fillMethod : String) :
    Except PyErr (VarKind × List ℚ) := do
  let indexZ := findTriple t "3" "13" "9"
  let indexRr := findTriple t "3" "13" "10"
  let indexCum := findTriple t "3" "13" "11"
  let indexCum2 := findTriple t "0" "13" "11"
  let vi ← (match indexZ with
    | some i => .ok (VarKind.varZ, i)
    | none =>
      match indexRr with
      | some i => .ok (VarKind.varPrmm, i)
      | none =>
        match indexCum with
        | some i => .ok (VarKind.varCumPrmm, i)
        | none =>
          match indexCum2 with
          | some i => .ok (VarKind.varCumPrmm, i)
          | none => .error (.exceptionMsg "Non ho capito cosa contiene il bufr. Esco"))
  let vk := vi.1
  let index0 := vi.2
  let r0 ← pyGet t index0
  let lb0 ← pyFloat r0.value
  let ecv ← pyAttr "emission_center" ec
  let lowBounds : ℚ :=
    if ecv = "DPC" ∧ varKindName vk = some "Z" ∧ lb0 = 0 then -31 else lb0
  let r1 ← pyGet t (index0 + 1)
  let index1 := if r1.F = some "1" ∧ r1.X = some "1" ∧ r1.Y = some "0" then index0 + 1 else index0
  let rn ← pyGet t (index1 + 1)
  let nlevQ ← pyFloat rn.value
  let nlev := (max 0 (ratTrunc nlevQ)).toNat
  let rows ← mapExcept (pyGet t) (index1 :: (List.range nlev).map (fun i => index1 + 2 + i))
  let kept := (rows.map (fun r => r.value)).filter (fun v => decide (v ≠ some "missing"))
  let levels0 ← mapExcept pyFloat kept
  let gt := levels0.filter (fun l => decide (lowBounds < l))
  let levels1 ← (if gt.length = levels0.length - 1 then
      .ok (match levels0 with | [] => ([] : List ℚ) | h :: _ => h :: gt)
    else .error (.valueError "could not broadcast input array"))
  let final ← levelsFinal fillMethod lowBounds levels1
  .ok (vk, final)

/-! Validity timestamp extraction of `Bufr.get_datetime_from_meta`
(bufr_class.py lines 241-301). -/

/-- Fields of a successfully constructed datetime.datetime value. -/
structure DateTimeV where
  year : ℤ
  month : ℤ
  day : ℤ
  hour : ℤ
  minute : ℤ
  deriving Repr, DecidableEq

/-- Gregorian leap-year test. -/
def isLeapYear (y : ℤ) : Bool :=
  (y % 4 == 0 && y % 100 != 0) || y % 400 == 0

/-- Number of days of a month. -/
def daysInMonth (y m : ℤ) : ℤ :=
  if m = 2 then (if isLeapYear y then 29 else 28)
  else if m = 4 ∨ m = 6 ∨ m = 9 ∨ m = 11 then 30
  else 31

/-- Model of the datetime.datetime constructor: None when the arguments are
not a possible calendar date (the ValueError branch of the source, which
is caught and converted to a None result). -/
def mkDatetime (y mo d h mi : ℤ) : Option DateTimeV :=
  if 1 ≤ y ∧ y ≤ 9999 ∧ 1 ≤ mo ∧ mo ≤ 12 ∧ 1 ≤ d ∧ d ≤ daysInMonth y mo ∧
      0 ≤ h ∧ h ≤ 23 ∧ 0 ≤ mi ∧ mi ≤ 59 then
    some ⟨y, mo, d, h, mi⟩
  else none

/-- Model of `Bufr.get_datetime_from_meta`. Only IndexError is caught by the
source around each block; in particular, when the date marker row
(F=3,X=1,Y=11) is absent the local index_year is never bound and the
second block raises NameError, which is modelled by the error outcome. -/
def getDatetimeFromMeta (t : List BufrRow) : Except PyErr (Option DateTimeV) := do
  let iy ← (match findTriple t "3" "1" "11" with
    | none => .ok ((none : Option Nat), (-99 : ℤ))
    | some i => do
      let r ← pyGet t i
      let y ← pyFloatInt r.value
      .ok (some i, y))
  let indexYear? := iy.1
  let year := iy.2
  let md ← (match indexYear? with
    | none => .error (.nameError "index_year")
    | some i =>
      match t[i + 1]? with
      | none => .ok ((-99 : ℤ), (-99 : ℤ))
      | some r1 => do
        let month ← (if r1.F = none ∧ r1.X = none ∧ r1.Y = none then pyFloatInt r1.value
          else .ok (-99))
        match t[i + 2]? with
        | none => .ok (month, (-99 : ℤ))
        | some r2 => do
          let day ← (if r2.F = none ∧ r2.X = none ∧ r2.Y = none then pyFloatInt r2.value
            else .ok (-99))
          .ok (month, day))
  let month := md.1
  let day := md.2
  let hm ← (match findTriple t "3" "1" "12" with
    | none => .ok ((-99 : ℤ), (-99 : ℤ))
    | some j => do
      let rj ← pyGet t j
      let hour ← pyFloatInt rj.value
      match t[j + 1]? with
      | none => .ok (hour, (-99 : ℤ))
      | some rj1 => do
        let minute ← (if rj1.F = none ∧ rj1.X = none ∧ rj1.Y = none then pyFloatInt rj1.value
          else .ok (-99))
        .ok (hour, minute))
  let hour := hm.1
  let minute := hm.2
  let y := if year = -99 then 0 else year
  let mo := if month = -99 then 0 else month
  let d := if day = -99 then 0 else day
  let h := if hour = -99 then 0 else hour
  let mi := if minute = -99 then 0 else minute
  .ok (mkDatetime y mo d h mi)

/-! Skeleton of `Bufr.read_bufr` (bufr_class.py lines 856-969). The body of
the metadata-extraction branch (taken only when the decoded table is
nonempty) is abstracted as a state transformer parameter, since the claims
about this entry point concern the empty-table path; the attribute
assignments of the Bufr instance are modelled by Option-valued state
fields (None meaning the attribute was never assigned). -/

/-- Numeric matrix, modelling 2-D numpy arrays. -/
abbrev Mat := List (List ℚ)

/-- Subset of the StructTime attributes assigned by read_bufr. -/
structure StructTimeM where
  dateTimeValidita : Option (Option DateTimeV) := none
  accTime : Option ℤ := none
  accTimeUnit : Option String := none
  deriving Repr, DecidableEq

/-- Subset of the StructGrid attributes used by the read_bufr data block
(nx and ny are bare annotations in the source, unset until addparams). -/
structure StructGridM where
  nx : Option Nat := none
  ny : Option Nat := none
  dx : Option ℚ := none
  dy : Option ℚ := none
  deriving Repr, DecidableEq

/-- Subset of the StructSource attributes assigned by the extractors. -/
structure StructSourceM where
  nameSource : Option String := none
  nameFile : Option String := none
  emissionCenter : Option String := none
  deriving Repr, DecidableEq

/-- Subset of the StructProjection attributes used downstream. -/
structure StructProjM where
  xOffset : Option ℚ := none
  yOffset : Option ℚ := none
  projName : Option String := none
  deriving Repr, DecidableEq

/-- Attribute state of a Bufr instance during read_bufr; a None field means
the corresponding instance attribute was never assigned. -/
structure BufrState where
  meta : List BufrRow
  timeA : Option StructTimeM := none
  sourceA : Option StructSourceM := none
  productA : Option String := none
  projectionA : Option StructProjM := none
  gridA : Option StructGridM := none
  variabileA : Option VarKind := none
  levelsA : Option (Option (List ℚ)) := none
  deriving Repr, DecidableEq

/-- Dictionary returned by read_bufr, built in the source literal order
TIME, GRID, SOURCE, PRODUCT, VARIABILE, PROJECTION. -/
structure MacroD where
  timeV : StructTimeM
  grid : StructGridM
  sourceV : StructSourceM
  product : String
  variabile : VarKind
  projection : StructProjM
  deriving Repr, DecidableEq

/-- Metadata phase of read_bufr: self.time is always assigned a fresh
StructTime; the extraction block runs only when the decoded table is
nonempty, otherwise only self.levels = None is assigned. -/
def readBufrMetaPhase (pipeline : BufrState → Except PyErr BufrState)
    (meta : List BufrRow) : Except PyErr BufrState :=
  let s0 : BufrState := { meta := meta, timeA := some {} }
  if meta.length > 0 then pipeline s0
  else .ok { s0 with levelsA := some none }

/-- Per-pixel decode of the binary payload: out_field[cont == idl] =
levels[idl] over all level indices, everything else keeps the missing
value. -/
def buildOutField (levels : List ℚ) (miss : ℚ) (ny nx : Nat) (bytes : List Nat) : Mat :=
  (List.range ny).map (fun r =>
    (List.range nx).map (fun c =>
      let code := bytes.getD (r * nx + c) 0
      if h : code < levels.length then levels.get ⟨code, h⟩ else miss))

/-- Data block of read_bufr (entered only when self.levels is not None).
A failed binary-file read is logged, leaving lines_rb unbound (NameError
at np.array); a failed reshape is logged, leaving cont unbound (NameError
in the level loop unless the loop is empty). -/
def dataPhase (s : BufrState) (levels : List ℚ) (binData : Option (List Nat)) :
    Except PyErr Mat :=
  match binData with
  | none => .error (.nameError "lines_rb")
  | some bytes => do
    let g ← pyAttr "grid" s.gridA
    let vk ← pyAttr "variabile" s.variabileA
    let miss ← (match varKindMissing vk with
      | some m => .ok m
      | none => .error .typeError)
    let ny ← (match g.ny with | some v => .ok v | none => .error .typeError)
    let nx ← (match g.nx with | some v => .ok v | none => .error .typeError)
    if bytes.length = ny * nx then
      .ok (buildOutField levels miss ny nx bytes)
    else if levels.length = 0 then
      .ok (buildOutField levels miss ny nx bytes)
    else
      .error (.nameError "cont")

/-- Macro dictionary construction: each self attribute is read in the order
of the source dict literal; an unassigned attribute raises AttributeError. -/
def buildMacroDict (s : BufrState) : Except PyErr MacroD := do
  let t ← pyAttr "time" s.timeA
  let g ← pyAttr "grid" s.gridA
  let src ← pyAttr "source" s.sourceA
  let p ← pyAttr "product" s.productA
  let v ← pyAttr "variabile" s.variabileA
  let pr ← pyAttr "projection" s.projectionA
  .ok ⟨t, g, src, p, v, pr⟩

/-- Model of `Bufr.read_bufr`: metadata phase, optional data block, macro
dictionary, then the return tuple, whose out_field local is unbound
(NameError) when the data block was skipped. -/
def readBufr (pipeline : BufrState → Except PyErr BufrState)
    (meta : List BufrRow) (binData : Option (List Nat)) :
    Except PyErr (MacroD × Mat) := do
  let s ← readBufrMetaPhase pipeline meta
  let levs ← pyAttr "levels" s.levelsA
  let outField? ← (match levs with
    | some l => (dataPhase s l binData).map some
    | none => .ok (none : Option Mat))
  let m ← buildMacroDict s
  match outField? with
  | some f => .ok (m, f)
  | none => .error (.nameError "out_field")

/-! ODIM polar-volume hierarchy (odim_pvol.py, odim_utils.py).

Groups are modelled as records of Option-valued attributes: odim_setattrs
writes an attribute exactly when the in-memory value is not None, and
get_attrs_from_odimgroup reads an attribute exactly when it is present in
the store, so a group round-trips field by field. Only the attribute names
occurring in the fixed per-group name lists of export_odim/read_odim are
modelled. The store is modelled structurally: the element at position i of
`OdimFile.elevs` is the group dataset(i+1), and position d of its `datas`
is the group data(d+1), matching the canonical hierarchy paths produced by
read_odim and assumed by the path strings of export_odim (group and data
keys are enumerated in h5py name order, which is the numeric order for the
volumes in scope). -/

/-- Root what group attributes (object, version, date, time, source). -/
structure OdimWhatG where
  obj : Option String := none
  version : Option String := none
  date : Option String := none
  time : Option String := none
  source : Option String := none
  deriving Repr, DecidableEq

/-- Root where group attributes of a polar volume (lon, lat, height). -/
structure OdimWhereG where
  lon : Option ℚ := none
  lat : Option ℚ := none
  height : Option ℚ := none
  deriving Repr, DecidableEq

/-- Root how group attributes in the export/read name list. -/
structure OdimHowG where
  task : Option String := none
  startepochs : Option ℚ := none
  system : Option String := none
  software : Option String := none
  sw_version : Option String := none
  simulated : Option String := none
  deriving Repr, DecidableEq

/-- OdimWhatDset attributes (dataset-level and data-level what groups share
this class in the source); gain and offset default to 1.0 and 0.0 in the
constructor, every other attribute to None. -/
structure WhatDsetG where
  product : Option String := none
  prodpar : Option String := none
  quantity : Option String := none
  startdate : Option String := none
  starttime : Option String := none
  enddate : Option String := none
  endtime : Option String := none
  gain : Option ℚ := some 1
  offset : Option ℚ := some 0
  nodata : Option ℚ := none
  undetect : Option ℚ := none
  deriving Repr, DecidableEq

/-- OdimWherePolarDset attributes. -/
structure WherePolarDsetG where
  elangle : Option ℚ := none
  nbins : Option ℚ := none
  rstart : Option ℚ := none
  rscale : Option ℚ := none
  nrays : Option ℚ := none
  a1gate : Option ℚ := none
  deriving Repr, DecidableEq

/-- OdimHowRadarDset attributes in the export/read name list. -/
structure HowRadarDsetG where
  beamwidth : Option ℚ := none
  wavelength : Option ℚ := none
  rpm : Option ℚ := none
  pulsewidth : Option ℚ := none
  RXbandwidth : Option ℚ := none
  lowprf : Option ℚ := none
  highprf : Option ℚ := none
  TXloss : Option ℚ := none
  RXloss : Option ℚ := none
  radomeloss : Option ℚ := none
  antgain : Option ℚ := none
  beamwH : Option ℚ := none
  beamwV : Option ℚ := none
  gasattn : Option ℚ := none
  nomTXpower : Option ℚ := none
  NI : Option ℚ := none
  Vsamples : Option ℚ := none
  deriving Repr, DecidableEq

/-- OdimHowPolarDset attributes (per-ray arrays). -/
structure HowPolarDsetG where
  elangles : Option (List ℚ) := none
  startazA : Option (List ℚ) := none
  stopazA : Option (List ℚ) := none
  startazT : Option (List ℚ) := none
  stopazT : Option (List ℚ) := none
  deriving Repr, DecidableEq

/-- Instance state of OdimHierarchyPvol. The varsnames attribute is Option
because setistance never assigns it (the assignment in its body is
commented out in the source); read_odim assigns it afterwards. -/
structure Pvol where
  root_what : OdimWhatG
  root_where : OdimWhereG
  root_how : OdimHowG
  n_group_dataset : Nat
  n_datasets : Nat
  group_datasets_what : List WhatDsetG
  group_datasets_where : List WherePolarDsetG
  group_datasets_how_radar : List HowRadarDsetG
  group_datasets_how_polar : List HowPolarDsetG
  datasets : List (List Mat)
  group_datasets_data_what : List (List WhatDsetG)
  elangles : List (Option ℚ)
  varsnames : Option (List String)
  deriving Repr, DecidableEq

/-- Model of `OdimHierarchyPvol.setistance` (odim_pvol.py lines 201-260):
asserts the lengths of datasets and group_datasets_data_what, then builds
elangles by indexing group_datasets_where over range(n_group_dataset)
(IndexError when that list is shorter). -/
def setistance (root_what : OdimWhatG) (root_where : OdimWhereG) (root_how : OdimHowG)
    (n_group_dataset n_datasets : Nat)
    (group_datasets_what : List WhatDsetG) (group_datasets_where : List WherePolarDsetG)
    (group_datasets_how_radar : List HowRadarDsetG)
    (group_datasets_how_polar : List HowPolarDsetG)
    (datasets : List (List Mat)) (group_datasets_data_what : List (List WhatDsetG)) :
    Except PyErr Pvol := do
  pyAssert (datasets.length = n_group_dataset)
  pyAssert (group_datasets_data_what.length = n_group_dataset)
  let elangs ← mapExcept (fun i => do
      let w ← pyGet group_datasets_where i
      .ok w.elangle)
    (List.range n_group_dataset)
  .ok { root_what := root_what, root_where := root_where, root_how := root_how,
        n_group_dataset := n_group_dataset, n_datasets := n_datasets,
        group_datasets_what := group_datasets_what,
        group_datasets_where := group_datasets_where,
        group_datasets_how_radar := group_datasets_how_radar,
        group_datasets_how_polar := group_datasets_how_polar,
        datasets := datasets, group_datasets_data_what := group_datasets_data_what,
        elangles := elangs, varsnames := none }

/-- Maximum of a nonempty list of rationals starting from an accumulator. -/
def qListMax : ℚ → List ℚ → ℚ
  | a, [] => a
  | a, b :: t => qListMax (max a b) t

/-- Model of Python max() on the elangles list (Optional floats): ValueError
on an empty list; a single element is returned without comparison; any
None among two or more elements raises TypeError. -/
def pyMax (l : List (Option ℚ)) : Except PyErr (Option ℚ) :=
  match l with
  | [] => .error (.valueError "max of empty sequence")
  | [x] => .ok x
  | x :: rest =>
    if (x :: rest).all (fun v => v.isSome) then
      .ok (some (qListMax (x.getD 0) (rest.map (fun v => v.getD 0))))
    else .error .typeError

/-- Maximum value of a nonempty list of angles (the value Python max()
returns on the all-set elangles lists of the claims; 0 on the empty list,
where the source raises before using it). -/
def pyMaxVals (A : List ℚ) : ℚ :=
  match A with
  | [] => 0
  | a :: t => qListMax a t

/-- Candidate quantity list of get_data_by_elangle: varsnames, minus Z_VD
exactly when the angle equals the maximum elevation angle and Z_VD is a
known quantity (list.remove removes the first occurrence). -/
def candidateQuantities (varsnames : List String) (mx : Option ℚ) (elangle : ℚ) : List String :=
  if mx = some elangle ∧ "Z_VD" ∈ varsnames then varsnames.erase "Z_VD" else varsnames

/-- Model of `OdimHierarchyPvol.get_data_by_elangle` (odim_pvol.py lines
323-363): copy varsnames, remove Z_VD from the candidates when the angle
equals the maximum elevation angle and Z_VD is a known quantity, resolve
the quantity and elevation positions, and return raw * gain + offset. -/
def get_data_by_elangle (h : Pvol) (elangle : ℚ) (quantity : String) : Except PyErr Mat := do
  let varsnames ← pyAttr "varsnames" h.varsnames
  let mx ← pyMax h.elangles
  let varsnames_elangle := candidateQuantities varsnames mx elangle
  let indexq ← pyListIndex varsnames_elangle quantity
  let ie ← pyListIndex h.elangles (some elangle)
  let elevData ← pyGet h.datasets ie
  let raw ← pyGet elevData indexq
  let ie2 ← pyListIndex h.elangles (some elangle)
  let whats ← pyGet h.group_datasets_data_what ie2
  let w ← pyGet whats indexq
  let offset ← pyNum w.offset
  let gain ← pyNum w.gain
  .ok (raw.map (fun row => row.map (fun v => v * gain + offset)))

/-- Data group of the store: the data array and, when it was written, its
what group. -/
structure DataGroup where
  data : Mat
  what : Option WhatDsetG
  deriving Repr, DecidableEq

/-- Elevation group dataset(i+1) of the store, with its four attribute
groups (the how group holds the polar and the radar views together) and
its data(d+1) children. -/
structure ElevGroup where
  whatG : WhatDsetG
  whereG : WherePolarDsetG
  howPolarG : HowPolarDsetG
  howRadarG : HowRadarDsetG
  datas : List DataGroup
  deriving Repr, DecidableEq

/-- ODIM HDF5 polar-volume store. -/
structure OdimFile where
  whatR : OdimWhatG
  whereR : OdimWhereG
  howR : OdimHowG
  elevs : List ElevGroup
  deriving Repr, DecidableEq

/-- Attributes of a dataset-level what group actually written by export_odim
(name list product, startdate, starttime, enddate, endtime). -/
def projDsetWhat (w : WhatDsetG) : WhatDsetG :=
  { product := w.product, startdate := w.startdate, starttime := w.starttime,
    enddate := w.enddate, endtime := w.endtime,
    prodpar := none, quantity := none, gain := none, offset := none,
    nodata := none, undetect := none }

/-- Attributes of a data-level what group actually written by export_odim
(name list quantity, gain, nodata, offset, undetect). -/
def projDataWhat (w : WhatDsetG) : WhatDsetG :=
  { quantity := w.quantity, gain := w.gain, nodata := w.nodata, offset := w.offset,
    undetect := w.undetect,
    product := none, prodpar := none, startdate := none, starttime := none,
    enddate := none, endtime := none }

/-- Inner write loop of export_odim over the data indices i_dset
(enumerate(np.arange(1, n_datasets))): the data array is written only
under the bound check against datasets[i_group], and its what group only
under the further bound check against group_datasets_data_what[i_group]. -/
def exportDatas (h : Pvol) (iGroup : Nat) : List Nat → Except PyErr (List DataGroup)
  | [] => .ok []
  | d :: rest => do
    let dsetsG ← pyGet h.datasets iGroup
    if hd : d < dsetsG.length then
      let arr := dsetsG.get ⟨d, hd⟩
      let whatsG ← pyGet h.group_datasets_data_what iGroup
      let w? := if hw : d < whatsG.length then some (projDataWhat (whatsG.get ⟨d, hw⟩)) else none
      let restG ← exportDatas h iGroup rest
      .ok (⟨arr, w?⟩ :: restG)
    else
      exportDatas h iGroup rest

/-- Body of the outer write loop of export_odim for one i_group: the four
per-elevation groups are indexed without bound checks (IndexError when a
list is too short), then the data loop runs. -/
def exportElev (h : Pvol) (i : Nat) : Except PyErr ElevGroup := do
  let w ← pyGet h.group_datasets_what i
  let wh ← pyGet h.group_datasets_where i
  let hp ← pyGet h.group_datasets_how_polar i
  let hr ← pyGet h.group_datasets_how_radar i
  let ds ← exportDatas h i (List.range (h.n_datasets - 1))
  .ok ⟨projDsetWhat w, wh, hp, hr, ds⟩

/-- Model of `OdimHierarchyPvol.export_odim` (odim_pvol.py lines 423-498):
root groups are written, then the outer loop enumerates
np.arange(1, n_group_dataset), i.e. i_group = 0 .. n_group_dataset-2
writing dataset numbers 1 .. n_group_dataset-1. -/
def export_odim (h : Pvol) : Except PyErr OdimFile := do
  let elevs ← mapExcept (exportElev h) (List.range (h.n_group_dataset - 1))
  .ok ⟨h.root_what, h.root_where, h.root_how, elevs⟩

/-- Fresh OdimWhatDset as constructed with only a hierarchy argument. -/
def defaultWhatDset : WhatDsetG := {}

/-- Name of the elevation group written by export_odim at loop position i
(f-string dataset{num_group} with num_group = i + 1). -/
def dsetKey (i : Nat) : String := "dataset" ++ Nat.repr (i + 1)

/-- Name of the data group written by export_odim at loop position d
(f-string data{num_dset} with num_dset = d + 1). -/
def dataKey (d : Nat) : String := "data" ++ Nat.repr (d + 1)

/-- Lexicographic byte order on names: the order h5py enumerates the keys
of a group in a file written without track_order ("dataset10" sorts before
"dataset2"). -/
def charListLe : List Char → List Char → Bool
  | [], _ => true
  | _ :: _, [] => false
  | a :: s, b :: t => if a = b then charListLe s t else decide (a < b)

/-- Lexicographic order on group names. -/
def keyLe (a b : String) : Bool := charListLe a.data b.data

/-- Insertion of a position into a list of positions kept sorted by the
lexicographic order of their key names. -/
def insertByKey (key : Nat → String) (a : Nat) : List Nat → List Nat
  | [] => [a]
  | b :: t => if keyLe (key a) (key b) then a :: b :: t else b :: insertByKey key a t

/-- Positions 0 .. m-1 enumerated in the lexicographic order of their key
names: the order in which h5py keys() yields m groups named
key 0 .. key (m-1). -/
def h5KeyOrder (key : Nat → String) (m : Nat) : List Nat :=
  (List.range m).foldr (insertByKey key) []

/-- Read of one data(d+1) group by read_odim: the data array, then the what
group with its five mandatory attributes (KeyError when the group or an
attribute is absent), returning also the decoded quantity name. -/
def readDataGroup (dg : DataGroup) : Except PyErr (Mat × WhatDsetG × String) := do
  let w ← (match dg.what with
    | some w => .ok w
    | none => .error (.keyError "what"))
  let q ← reqAttr "quantity" w.quantity
  let g ← reqAttr "gain" w.gain
  let o ← reqAttr "offset" w.offset
  let nd ← reqAttr "nodata" w.nodata
  let ud ← reqAttr "undetect" w.undetect
  .ok (dg.data, { quantity := some q, gain := some g, offset := some o,
                  nodata := some nd, undetect := some ud,
                  product := none, prodpar := none, startdate := none,
                  starttime := none, enddate := none, endtime := none }, q)

/-- Result of reading one dataset(i+1) group. -/
structure ElevRead where
  whatD : WhatDsetG
  whereD : WherePolarDsetG
  howRadarD : HowRadarDsetG
  howPolarD : HowPolarDsetG
  mats : List Mat
  dataWhats : List WhatDsetG
  quantities : List String
  deriving Repr, DecidableEq

/-- Read of one dataset(i+1) group by read_odim: the what/where/how groups
are read opportunistically (each present attribute overwrites the fresh
instance defaults), then every data child is read, iterating the data(d+1)
children in the lexicographic order h5py keys() yields their names in, and
the per-elevation arrays are stacked with np.vstack, which raises
ValueError on an empty list. -/
def readElev (g : ElevGroup) : Except PyErr ElevRead := do
  let dgWhat : WhatDsetG :=
    { defaultWhatDset with
        product := g.whatG.product, startdate := g.whatG.startdate,
        starttime := g.whatG.starttime, enddate := g.whatG.enddate,
        endtime := g.whatG.endtime }
  let dgWhere := g.whereG
  let dgHowRadar := g.howRadarG
  let dgHowPolar := g.howPolarG
  let triples ← mapExcept (fun d => do
      let dg ← pyGet g.datas d
      readDataGroup dg)
    (h5KeyOrder dataKey g.datas.length)
  let mats := triples.map (fun x => x.1)
  let whats := triples.map (fun x => x.2.1)
  let qs := triples.map (fun x => x.2.2)
  if mats.length = 0 then
    .error (.valueError "need at least one array to concatenate")
  else
    .ok ⟨dgWhat, dgWhere, dgHowRadar, dgHowPolar, mats, whats, qs⟩

/-- Accumulation of newly seen quantity names in discovery order
(`if quantity not in allquantities: allquantities.append(quantity)`). -/
def accQuantities (acc : List String) (qs : List String) : List String :=
  qs.foldl (fun a q => if q ∈ a then a else a ++ [q]) acc

/-- Model of `OdimHierarchyPvol.read_odim` (odim_pvol.py lines 500-629):
mandatory root what/where attributes, opportunistic root how, one read per
elevation group iterating the dataset(i+1) groups in the lexicographic
order h5py keys() yields their names in (the file is written without
track_order), the running maximum of the per-elevation data counts, the
discovery-ordered union of quantity names, then setistance and the
varsnames assignment. -/
def read_odim (f : OdimFile) : Except PyErr Pvol := do
  let obj ← reqAttr "object" f.whatR.obj
  let version ← reqAttr "version" f.whatR.version
  let date ← reqAttr "date" f.whatR.date
  let time ← reqAttr "time" f.whatR.time
  let source ← reqAttr "source" f.whatR.source
  let root_what : OdimWhatG :=
    { obj := some obj, version := some version, date := some date,
      time := some time, source := some source }
  let lon ← reqAttr "lon" f.whereR.lon
  let lat ← reqAttr "lat" f.whereR.lat
  let height ← reqAttr "height" f.whereR.height
  let root_where : OdimWhereG := { lon := some lon, lat := some lat, height := some height }
  let root_how := f.howR
  let reads ← mapExcept (fun i => do
      let g ← pyGet f.elevs i
      readElev g)
    (h5KeyOrder dsetKey f.elevs.length)
  let nmax := reads.foldl (fun acc r => max acc r.mats.length) 0
  let allq := reads.foldl (fun acc r => accQuantities acc r.quantities) []
  let h ← setistance root_what root_where root_how f.elevs.length nmax
      (reads.map (fun r => r.whatD)) (reads.map (fun r => r.whereD))
      (reads.map (fun r => r.howRadarD)) (reads.map (fun r => r.howPolarD))
      (reads.map (fun r => r.mats)) (reads.map (fun r => r.dataWhats))
  .ok { h with varsnames := some allq }

/-- Data-level what group with all five written attributes populated, used
by the concrete witness volumes. -/
def dwU (q : String) : WhatDsetG :=
  { quantity := some q, gain := some 2, offset := some 3, nodata := some 255,
    undetect := some 0 }

/-- Concrete two-elevation, two-quantity polar volume with uniform
quantities, used as witness input. -/
def pvolU : Pvol :=
  { root_what := { obj := some "PVOL", version := some "H5rad 2.1", date := some "20240101",
                   time := some "100000", source := some "WMO:16144" },
    root_where := { lon := some 11, lat := some 44, height := some 31 },
    root_how := {},
    n_group_dataset := 2, n_datasets := 2,
    group_datasets_what := [{ product := some "SCAN" }, { product := some "SCAN" }],
    group_datasets_where := [{ elangle := some 1 }, { elangle := some 5 }],
    group_datasets_how_radar := [{}, {}],
    group_datasets_how_polar := [{}, {}],
    datasets := [[[[1, 2]], [[3, 4]]], [[[5, 6]], [[7, 8]]]],
    group_datasets_data_what := [[dwU "DBZH", dwU "TH"], [dwU "DBZH", dwU "TH"]],
    elangles := [some 1, some 5],
    varsnames := some ["DBZH", "TH"] }

/-- Concrete two-elevation polar volume where the derived quantity Z_VD is
stored at every elevation except the one with the maximum angle, used as
witness input for the lookup irregularity. -/
def pvolZ : Pvol :=
  { root_what := { obj := some "PVOL", version := some "H5rad 2.1", date := some "20240101",
                   time := some "100000", source := some "WMO:16144" },
    root_where := { lon := some 11, lat := some 44, height := some 31 },
    root_how := {},
    n_group_dataset := 2, n_datasets := 2,
    group_datasets_what := [{ product := some "SCAN" }, { product := some "SCAN" }],
    group_datasets_where := [{ elangle := some 1 }, { elangle := some 5 }],
    group_datasets_how_radar := [{}, {}],
    group_datasets_how_polar := [{}, {}],
    datasets := [[[[1, 2]], [[3, 4]]], [[[5, 6]]]],
    group_datasets_data_what := [[dwU "DBZH", dwU "Z_VD"], [dwU "DBZH"]],
    elangles := [some 1, some 5],
    varsnames := some ["DBZH", "Z_VD"] }

/-- Concrete twelve-elevation, two-quantity fully populated polar volume:
export_odim writes eleven dataset groups named dataset1 .. dataset11,
which h5py then enumerates in lexicographic order (dataset1, dataset10,
dataset11, dataset2, ...), scrambling the read-back elevation order. -/
def pvolL : Pvol :=
  { root_what := { obj := some "PVOL", version := some "H5rad 2.1", date := some "20240101",
                   time := some "100000", source := some "WMO:16144" },
    root_where := { lon := some 11, lat := some 44, height := some 31 },
    root_how := {},
    n_group_dataset := 12, n_datasets := 2,
    group_datasets_what := List.replicate 12 ({ product := some "SCAN" } : WhatDsetG),
    group_datasets_where :=
      [{ elangle := some 1 }, { elangle := some 2 }, { elangle := some 3 },
       { elangle := some 4 }, { elangle := some 5 }, { elangle := some 6 },
       { elangle := some 7 }, { elangle := some 8 }, { elangle := some 9 },
       { elangle := some 10 }, { elangle := some 11 }, { elangle := some 12 }],
    group_datasets_how_radar := List.replicate 12 ({} : HowRadarDsetG),
    group_datasets_how_polar := List.replicate 12 ({} : HowPolarDsetG),
    datasets := List.replicate 12 [[[5, 6]], [[7, 8]]],
    group_datasets_data_what := List.replicate 12 [dwU "DBZH", dwU "TH"],
    elangles := [some 1, some 2, some 3, some 4, some 5, some 6, some 7, some 8,
                 some 9, some 10, some 11, some 12],
    varsnames := some ["DBZH", "TH"] }

/-! Helper lemmas. -/

theorem exceptBind_ok {α β : Type} {x : Except PyErr α} {f : α → Except PyErr β} {b : β}
    (h : x >>= f = .ok b) : ∃ a, x = .ok a ∧ f a = .ok b := by
  cases x with
  | error e => exact absurd h (by simp [Bind.bind, Except.bind])
  | ok a => exact ⟨a, rfl, by simpa [Bind.bind, Except.bind] using h⟩

theorem mapExcept_ok {α β : Type} {f : α → Except PyErr β} {g : α → β} :
    ∀ {l : List α}, (∀ a ∈ l, f a = .ok (g a)) → mapExcept f l = .ok (l.map g) := by
  intro l
  induction l with
  | nil => intro _; rfl
  | cons a t ih =>
    intro hall
    have ha : f a = .ok (g a) := hall a (by simp)
    have ht : mapExcept f t = .ok (t.map g) := ih (fun x hx => hall x (by simp [hx]))
    simp [mapExcept, ha, ht, Bind.bind, Except.bind]

theorem mapExcept_ok_inv {α β : Type} {f : α → Except PyErr β} :
    ∀ {l : List α} {out : List β}, mapExcept f l = .ok out →
      out.length = l.length ∧
      ∀ (i : Nat) (a : α), l[i]? = some a → ∃ b, f a = .ok b ∧ out[i]? = some b := by
  intro l
  induction l with
  | nil =>
    intro out h
    have : out = [] := by simpa [mapExcept] using h.symm
    subst this
    exact ⟨rfl, by intro i a ha; simp at ha⟩
  | cons x t ih =>
    intro out h
    unfold mapExcept at h
    obtain ⟨b, hb, h2⟩ := exceptBind_ok h
    obtain ⟨r, hr, h3⟩ := exceptBind_ok h2
    have hout : out = b :: r := by
      cases h3
      rfl
    subst hout
    obtain ⟨hlen, hidx⟩ := ih hr
    refine ⟨by simp [hlen], ?_⟩
    intro i a ha
    cases i with
    | zero =>
      simp only [List.getElem?_cons_zero, Option.some.injEq] at ha
      subst ha
      exact ⟨b, hb, by simp⟩
    | succ j =>
      simp only [List.getElem?_cons_succ] at ha
      obtain ⟨c, hc, hcout⟩ := hidx j a ha
      exact ⟨c, hc, by simpa [List.getElem?_cons_succ] using hcout⟩

theorem pyGet_ok {α : Type} {l : List α} {i : Nat} {a : α} (h : l[i]? = some a) :
    pyGet l i = .ok a := by
  simp [pyGet, h]

theorem pyGet_ok_inv {α : Type} {l : List α} {i : Nat} {a : α} (h : pyGet l i = .ok a) :
    l[i]? = some a := by
  unfold pyGet at h
  cases hl : l[i]? with
  | none => rw [hl] at h; exact absurd h (by simp)
  | some b => rw [hl] at h; cases h; rfl

theorem pstrip_as_rdrop (l : List Char) :
    pstrip l = (l.dropWhile isPySpace).rdropWhile isPySpace := by
  simp [pstrip, List.rdropWhile]

theorem pstrip_idem (l : List Char) : pstrip (pstrip l) = pstrip l := by
  rw [pstrip_as_rdrop, pstrip_as_rdrop]
  set m := l.dropWhile isPySpace with hm
  have h1 : m.dropWhile isPySpace = m := by
    rw [hm]
    exact List.dropWhile_idempotent isPySpace l
  have h2 : (m.rdropWhile isPySpace).dropWhile isPySpace = m.rdropWhile isPySpace := by
    rw [List.dropWhile_eq_self_iff]
    intro hl
    obtain ⟨s, hs⟩ := List.rdropWhile_prefix isPySpace m
    have hlm : 0 < m.length := by
      have := List.IsPrefix.length_le ⟨s, hs⟩
      omega
    have hget : (m.rdropWhile isPySpace).get ⟨0, hl⟩ = m.get ⟨0, hlm⟩ := by
      have := List.IsPrefix.getElem ⟨s, hs⟩ (by omega : (0 : Nat) < (m.rdropWhile isPySpace).length)
      simpa [List.get_eq_getElem] using this
    rw [hget]
    exact (List.dropWhile_eq_self_iff.1 h1) hlm
  rw [h2]
  exact List.rdropWhile_idempotent isPySpace m

theorem checkEmptyfield_namefile :
    checkEmptyfield "namefile".toList = some "namefile".toList := by decide

theorem checkEmptyfield_pstrip_eq_normField (s : List Char) :
    checkEmptyfield (pstrip s) = normField s := by
  simp [checkEmptyfield, normField]

theorem checkEmptyfield_pstrip {s t : List Char}
    (h : checkEmptyfield (pstrip s) = some t) : t ≠ [] ∧ pstrip t = t := by
  unfold checkEmptyfield at h
  by_cases he : pstrip s = []
  · rw [if_pos he] at h
    exact absurd h (by simp)
  · rw [if_neg he] at h
    cases h
    exact ⟨he, pstrip_idem s⟩

/-! Claim C5: fixed-column BUFR line decoding. -/

/-- C5: get_octect is a deterministic fixed-column split: F from [0,2),
X from [2,5), Y from [5,9); except on the trimmed triple ("3","21","193"),
value from [9,23), id5 from [23,27), id6 from [27,32), id7 from [32,35),
descriptor from [35,end); on the exception path value is [9,end),
id5/id6/id7 unset and descriptor "namefile"; every field is trimmed and a
field that trims to empty is None, never the empty string; decoding twice
yields identical records. -/
theorem claim_C5 (line : List Char) :
    (getOctect line =
      [(octectSpec line).F, (octectSpec line).X, (octectSpec line).Y, (octectSpec line).value,
       (octectSpec line).id5, (octectSpec line).id6, (octectSpec line).id7,
       (octectSpec line).descriptor])
    ∧ (∀ o ∈ getOctect line, ∀ t, o = some t → t ≠ [] ∧ pstrip t = t)
    ∧ getOctect line = getOctect line := by
  refine ⟨?_, ?_, rfl⟩
  · by_cases hc : pstrip (pySlice line 0 2) = "3".toList ∧ pstrip (pySlice line 2 5) = "21".toList
        ∧ pstrip (pySlice line 5 9) = "193".toList
    · simp only [getOctect, octectSpec, if_pos hc, List.map_cons, List.map_nil,
        checkEmptyfield_pstrip_eq_normField, checkEmptyfield_namefile]
      simp [checkEmptyfield]
    · simp only [getOctect, octectSpec, if_neg hc, List.map_cons, List.map_nil,
        checkEmptyfield_pstrip_eq_normField]
  · intro o ho t hot
    subst hot
    unfold getOctect at ho
    rw [List.mem_map] at ho
    obtain ⟨c, hcm, hco⟩ := ho
    by_cases hc : pstrip (pySlice line 0 2) = "3".toList ∧ pstrip (pySlice line 2 5) = "21".toList
        ∧ pstrip (pySlice line 5 9) = "193".toList
    · rw [if_pos hc] at hcm
      simp only [List.mem_cons, List.not_mem_nil, or_false] at hcm
      rcases hcm with h | h | h | h | h | h | h | h <;> subst h
      · exact checkEmptyfield_pstrip hco
      · exact checkEmptyfield_pstrip hco
      · exact checkEmptyfield_pstrip hco
      · exact checkEmptyfield_pstrip hco
      · exact absurd hco (by simp [checkEmptyfield])
      · exact absurd hco (by simp [checkEmptyfield])
      · exact absurd hco (by simp [checkEmptyfield])
      · rw [checkEmptyfield_namefile] at hco
        cases hco
        exact ⟨by decide, by decide⟩
    · rw [if_neg hc] at hcm
      simp only [List.mem_cons, List.not_mem_nil, or_false] at hcm
      rcases hcm with h | h | h | h | h | h | h | h <;> subst h <;>
        exact checkEmptyfield_pstrip hco

/-! Claim C6: string attribute byte lengths (corrected). -/

/-- C6 counterexample: `odim_setattrs` stores a string attribute through
np.bytes_, whose item size equals the content length, not length + 1; for
the concrete content "IMAGE" written by the image dataset writer the
stored size is 5, not 6. -/
theorem claim_C6_counterexample :
    ¬ ((npBytesAttr "IMAGE").itemsize = "IMAGE".length + 1) := by decide

/-- C6 amended: strings written through `formatstr` (the in-place rewrite
path) are fixed-length ASCII byte arrays of size content length + 1 (the
content NUL-padded by one byte), while strings written by the
odim_setattrs operations through np.bytes_ are fixed-length byte arrays
of size exactly the content length, with the unpadded content. -/
theorem claim_C6 (s : String) :
    (formatstr s).itemsize = s.length + 1
    ∧ (formatstr s).bytes = latin1Bytes s ++ [0]
    ∧ (npBytesAttr s).itemsize = s.length
    ∧ (npBytesAttr s).bytes = latin1Bytes s := by
  have hlen : (latin1Bytes s).length = s.length := by
    simp [latin1Bytes]
  refine ⟨rfl, ?_, ?_, rfl⟩
  · simp [formatstr, hlen]
  · simp [npBytesAttr, hlen]

/-! Claim C7 (code bug): missing date marker raises NameError. -/

/-- C7, evaluation at the failing input: on a metadata table with no
(F=3,X=1,Y=11) date marker row (here the empty table and a table with one
unrelated row), get_datetime_from_meta leaves index_year unbound and its
month/day block raises NameError, instead of defaulting the fields to 0
and returning the None timestamp as the claim states. -/
theorem claim_C7 :
    getDatetimeFromMeta [] = .error (.nameError "index_year")
    ∧ getDatetimeFromMeta
        [{ F := some "0", X := some "8", Y := some "21", value := some "3.0" }]
      = .error (.nameError "index_year") := by
  exact ⟨rfl, rfl⟩

/-! Claim C10: read_bufr on an empty decoded metadata table. -/

/-- C10: whatever the metadata-extraction pipeline does on nonempty tables,
on an empty decoded table read_bufr assigns levels = None and nothing
else (time excepted), skips the data block, and raises AttributeError on
self.grid while building the macro dictionary, instead of returning the
(macro, out_field) tuple. -/
theorem claim_C10 (pipeline : BufrState → Except PyErr BufrState)
    (binData : Option (List Nat)) :
    (readBufrMetaPhase pipeline [] = .ok { meta := [], timeA := some {}, levelsA := some none }
      ∧ ({ meta := [], timeA := some {}, levelsA := some none } : BufrState).sourceA = none
      ∧ ({ meta := [], timeA := some {}, levelsA := some none } : BufrState).gridA = none
      ∧ ({ meta := [], timeA := some {}, levelsA := some none } : BufrState).projectionA = none
      ∧ ({ meta := [], timeA := some {}, levelsA := some none } : BufrState).variabileA = none)
    ∧ readBufr pipeline [] binData = .error (.attributeError "grid") := by
  exact ⟨⟨rfl, rfl, rfl, rfl, rfl⟩, rfl⟩

/-! Claim C4: level reconstruction. -/

theorem pairMids_getElem? : ∀ (l : List ℚ) (i : Nat) (a b : ℚ),
    l[i]? = some a → l[i + 1]? = some b → (pairMids l)[i]? = some ((a + b) / 2) := by
  intro l
  induction l with
  | nil => intro i a b ha _; simp at ha
  | cons x t ih =>
    intro i a b ha hb
    cases t with
    | nil =>
      cases i with
      | zero => simp at hb
      | succ j => simp at hb
    | cons y s =>
      cases i with
      | zero =>
        simp only [List.getElem?_cons_succ, List.getElem?_cons_zero, Option.some.injEq] at ha hb
        subst ha
        subst hb
        simp [pairMids]
      | succ j =>
        rw [List.getElem?_cons_succ] at ha hb
        have hres := ih j a b ha hb
        rw [show pairMids (x :: y :: s) = (x + y) / 2 :: pairMids (y :: s) from rfl,
          List.getElem?_cons_succ]
        exact hres

theorem applyFillMethod_ok {m : String} {l out : List ℚ}
    (h : applyFillMethod m l = .ok out) : m = "min" ∨ m = "ave" ∨ m = "max" := by
  unfold applyFillMethod at h
  split_ifs at h with h1 h2 h3
  · exact .inl h1
  · exact .inr (.inl h2)
  · exact .inr (.inr h3)

/-- C4: with readLevs the level array read from the table (whose first entry
is the lower bound), fill method min shifts the values down one slot
(final(i+1) = read(i)), max leaves the values as read, ave replaces each
adjacent pair by its midpoint; in each case the final array starts with
the lower bound; and on read levels [0,1,2,3] with lower bound 0 the
final arrays are [0,0,1,2], [0,1,2,3] and [0, 1/2, 3/2, 5/2]. -/
theorem claim_C4 (low : ℚ) (readLevs : List ℚ) (hhead : readLevs.head? = some low) :
    (levelsFinal "min" low readLevs = .ok (low :: readLevs.dropLast)
      ∧ ∀ i : Nat, i + 1 < readLevs.length →
          (low :: readLevs.dropLast)[i + 1]? = readLevs[i]?)
    ∧ levelsFinal "max" low readLevs = .ok readLevs
    ∧ (levelsFinal "ave" low readLevs = .ok (low :: pairMids readLevs)
      ∧ ∀ i : Nat, i + 1 < readLevs.length → ∀ a b : ℚ, readLevs[i]? = some a →
          readLevs[i + 1]? = some b →
          (low :: pairMids readLevs)[i + 1]? = some ((a + b) / 2))
    ∧ (∀ (m : String) (out : List ℚ), levelsFinal m low readLevs = .ok out →
        out.head? = some low)
    ∧ levelsFinal "min" 0 [0, 1, 2, 3] = .ok [0, 0, 1, 2]
    ∧ levelsFinal "max" 0 [0, 1, 2, 3] = .ok [0, 1, 2, 3]
    ∧ levelsFinal "ave" 0 [0, 1, 2, 3] = .ok [0, 1/2, 3/2, 5/2] := by
  cases readLevs with
  | nil => simp at hhead
  | cons a t =>
  have ha : a = low := by simpa using hhead
  subst ha
  refine ⟨⟨rfl, ?_⟩, rfl, ⟨rfl, ?_⟩, ?_, rfl, rfl, ?_⟩
  · intro i hi
    rw [List.getElem?_cons_succ, List.dropLast_eq_take, List.getElem?_take,
      if_pos (show i < (a :: t).length - 1 by
        simp only [List.length_cons] at hi ⊢
        omega)]
  · intro i hi b c hb hc
    rw [List.getElem?_cons_succ]
    exact pairMids_getElem? _ i b c hb hc
  · intro m out hout
    unfold levelsFinal forceFirst applyFillMethod at hout
    split_ifs at hout with h1 h2 h3
    · cases hout
      rfl
    · cases hout
      rfl
    · cases hout
      rfl
  · show Except.ok (aveFill [0, 1, 2, 3]) = _
    simp only [aveFill, pairMids]
    norm_num

/-- Witness for C4 at the concrete input of the spec scenario. -/
theorem claim_C4_witness :
    (([(0 : ℚ), 1, 2, 3].head? = some 0)
      ∧ levelsFinal "max" 0 [0, 1, 2, 3] = .ok [0, 1, 2, 3]) :=
  ⟨by decide, (claim_C4 0 [0, 1, 2, 3] (by decide)).2.2.2.2.2.1⟩

/-! Claim C8 (corrected): error conditions of get_var_levs_from_meta. -/

/-- C8 counterexample to the claimed "if and only if": on a table whose Z
marker row (F=3,X=13,Y=9) is present but carries a non-numeric value, and
with the recognized fill method "max", get_var_levs_from_meta still
raises (float() ValueError), so an exception does not imply one of the
two listed contract violations. -/
theorem claim_C8_counterexample :
    getVarLevs (some "Arpae Emilia-Romagna")
      [{ F := some "3", X := some "13", Y := some "9", value := some "abc" }] "max"
      = .error (.valueError "could not convert string to float") := by decide

/-- C8 amended: get_var_levs_from_meta raises (is not logged-and-defaulted)
whenever none of the field-kind markers (F=3,X=13,Y=9), (F=3,X=13,Y=10),
(F=3,X=13,Y=11), (F=0,X=13,Y=11) is present, and it never succeeds when
fill_method is not one of min, ave, max; other malformed data (e.g. a
non-numeric marker value) may also raise, so the "only if" direction of
the original claim is dropped. -/
theorem claim_C8 :
    (∀ (ec : Option String) (t : List BufrRow) (m : String),
      findTriple t "3" "13" "9" = none → findTriple t "3" "13" "10" = none →
      findTriple t "3" "13" "11" = none → findTriple t "0" "13" "11" = none →
      getVarLevs ec t m = .error (.exceptionMsg "Non ho capito cosa contiene il bufr. Esco"))
    ∧ (∀ (ec : Option String) (t : List BufrRow) (m : String) (r : VarKind × List ℚ),
      getVarLevs ec t m = .ok r → m = "min" ∨ m = "ave" ∨ m = "max") := by
  constructor
  · intro ec t m hz hrr hc hc2
    unfold getVarLevs
    rw [hz, hrr, hc, hc2]
    rfl
  · intro ec t m r hok
    unfold getVarLevs at hok
    obtain ⟨vi, hvi, hok⟩ := exceptBind_ok hok
    obtain ⟨r0, hr0, hok⟩ := exceptBind_ok hok
    obtain ⟨lb0, hlb, hok⟩ := exceptBind_ok hok
    obtain ⟨ecv, hecv, hok⟩ := exceptBind_ok hok
    obtain ⟨r1, hr1, hok⟩ := exceptBind_ok hok
    obtain ⟨rn, hrn, hok⟩ := exceptBind_ok hok
    obtain ⟨nq, hnq, hok⟩ := exceptBind_ok hok
    obtain ⟨rows, hrows, hok⟩ := exceptBind_ok hok
    obtain ⟨levels0, hlv, hok⟩ := exceptBind_ok hok
    obtain ⟨levels1, hl1, hok⟩ := exceptBind_ok hok
    obtain ⟨final, hf, hok⟩ := exceptBind_ok hok
    exact applyFillMethod_ok (by simpa [levelsFinal] using hf)

/-- Witness for C8 on the empty table (no marker present). -/
theorem claim_C8_witness :
    (findTriple [] "3" "13" "9" = none)
    ∧ getVarLevs none [] "max"
      = .error (.exceptionMsg "Non ho capito cosa contiene il bufr. Esco") :=
  ⟨by decide, claim_C8.1 none [] "max" (by decide) (by decide) (by decide) (by decide)⟩

/-! Claim C9: elevation-index invariant. -/

theorem pyAssert_ok {c : Prop} [Decidable c] {u : Unit} (h : pyAssert c = .ok u) : c := by
  unfold pyAssert at h
  split_ifs at h with hc
  exact hc

theorem setistance_ok_inv {rw_ : OdimWhatG} {rwh : OdimWhereG} {rh : OdimHowG} {n k : Nat}
    {gw : List WhatDsetG} {gwh : List WherePolarDsetG} {ghr : List HowRadarDsetG}
    {ghp : List HowPolarDsetG} {ds : List (List Mat)} {gdw : List (List WhatDsetG)} {h : Pvol}
    (hok : setistance rw_ rwh rh n k gw gwh ghr ghp ds gdw = .ok h) :
    h.n_group_dataset = n ∧ h.n_datasets = k
    ∧ h.group_datasets_what = gw ∧ h.group_datasets_where = gwh
    ∧ h.group_datasets_how_radar = ghr ∧ h.group_datasets_how_polar = ghp
    ∧ h.datasets = ds ∧ h.group_datasets_data_what = gdw
    ∧ h.root_what = rw_ ∧ h.root_where = rwh ∧ h.root_how = rh
    ∧ h.varsnames = none
    ∧ ds.length = n ∧ gdw.length = n
    ∧ h.elangles.length = n
    ∧ (∀ i : Nat, i < n → h.elangles[i]? = (gwh[i]?).map (fun w => w.elangle)) := by
  unfold setistance at hok
  obtain ⟨u1, ha1, hok⟩ := exceptBind_ok hok
  obtain ⟨u2, ha2, hok⟩ := exceptBind_ok hok
  obtain ⟨elangs, hel, hok⟩ := exceptBind_ok hok
  cases hok
  have hd1 := pyAssert_ok ha1
  have hd2 := pyAssert_ok ha2
  obtain ⟨hlen, hidx⟩ := mapExcept_ok_inv hel
  refine ⟨rfl, rfl, rfl, rfl, rfl, rfl, rfl, rfl, rfl, rfl, rfl, rfl, hd1, hd2, ?_, ?_⟩
  · simpa using hlen
  · intro i hi
    have hr : (List.range n)[i]? = some i := by
      simp [List.getElem?_range, hi]
    obtain ⟨b, hb, hbout⟩ := hidx i i hr
    obtain ⟨w, hw, hb2⟩ := exceptBind_ok hb
    cases hb2
    rw [hbout, pyGet_ok_inv hw]
    rfl

/-- C9: after any successful population, via setistance or via read_odim,
the elangles list has length n_group_dataset, its i-th entry is the
elangle of the i-th group_datasets_where record in discovery order (not
sorted), and the per-elevation dataset list and data-what list also have
length n_group_dataset. -/
theorem claim_C9 :
    (∀ (rw_ : OdimWhatG) (rwh : OdimWhereG) (rh : OdimHowG) (n k : Nat)
       (gw : List WhatDsetG) (gwh : List WherePolarDsetG) (ghr : List HowRadarDsetG)
       (ghp : List HowPolarDsetG) (ds : List (List Mat)) (gdw : List (List WhatDsetG))
       (h : Pvol),
      setistance rw_ rwh rh n k gw gwh ghr ghp ds gdw = .ok h →
      h.elangles.length = h.n_group_dataset
      ∧ (∀ i : Nat, i < h.n_group_dataset →
          h.elangles[i]? = (h.group_datasets_where[i]?).map (fun w => w.elangle))
      ∧ h.datasets.length = h.n_group_dataset
      ∧ h.group_datasets_data_what.length = h.n_group_dataset)
    ∧ (∀ (f : OdimFile) (h : Pvol), read_odim f = .ok h →
      h.elangles.length = h.n_group_dataset
      ∧ (∀ i : Nat, i < h.n_group_dataset →
          h.elangles[i]? = (h.group_datasets_where[i]?).map (fun w => w.elangle))
      ∧ h.datasets.length = h.n_group_dataset
      ∧ h.group_datasets_data_what.length = h.n_group_dataset) := by
  constructor
  · intro rw_ rwh rh n k gw gwh ghr ghp ds gdw h hok
    obtain ⟨hn, _, _, hwher, _, _, hds, hgdw, _, _, _, _, hdsl, hgdwl, hell, hidx⟩ :=
      setistance_ok_inv hok
    refine ⟨by rw [hell, hn], ?_, by rw [hds, hn]; exact hdsl, by rw [hgdw, hn]; exact hgdwl⟩
    intro i hi
    rw [hn] at hi
    rw [hwher]
    exact hidx i hi
  · intro f h hok
    unfold read_odim at hok
    obtain ⟨obj, _, hok⟩ := exceptBind_ok hok
    obtain ⟨ver, _, hok⟩ := exceptBind_ok hok
    obtain ⟨dat, _, hok⟩ := exceptBind_ok hok
    obtain ⟨tim, _, hok⟩ := exceptBind_ok hok
    obtain ⟨src, _, hok⟩ := exceptBind_ok hok
    obtain ⟨lon, _, hok⟩ := exceptBind_ok hok
    obtain ⟨lat, _, hok⟩ := exceptBind_ok hok
    obtain ⟨hei, _, hok⟩ := exceptBind_ok hok
    obtain ⟨reads, hreads, hok⟩ := exceptBind_ok hok
    obtain ⟨h0, hset, hok⟩ := exceptBind_ok hok
    cases hok
    obtain ⟨hn, _, _, hwher, _, _, hds, hgdw, _, _, _, _, hdsl, hgdwl, hell, hidx⟩ :=
      setistance_ok_inv hset
    refine ⟨?_, ?_, ?_, ?_⟩
    · show h0.elangles.length = h0.n_group_dataset
      rw [hell, hn]
    · intro i hi
      show h0.elangles[i]? = (h0.group_datasets_where[i]?).map (fun w => w.elangle)
      have hi2 : i < f.elevs.length := by
        have : i < h0.n_group_dataset := hi
        rwa [hn] at this
      rw [hwher]
      exact hidx i hi2
    · show h0.datasets.length = h0.n_group_dataset
      rw [hds, hn]
      exact hdsl
    · show h0.group_datasets_data_what.length = h0.n_group_dataset
      rw [hgdw, hn]
      exact hgdwl

/-- Witness for C9 at a concrete one-elevation setistance call. -/
theorem claim_C9_witness :
    ∃ h : Pvol, setistance {} {} {} 1 1 [{}] [{ elangle := some 5 }] [{}] [{}]
        [[[[7]]]] [[{}]] = .ok h
      ∧ h.elangles.length = h.n_group_dataset
      ∧ h.datasets.length = h.n_group_dataset := by
  have hset : setistance ({} : OdimWhatG) {} {} 1 1 [{}] [{ elangle := some 5 }] [{}] [{}]
      [[[[7]]]] [[{}]]
      = .ok { root_what := {}, root_where := {}, root_how := {},
              n_group_dataset := 1, n_datasets := 1, group_datasets_what := [{}],
              group_datasets_where := [{ elangle := some 5 }],
              group_datasets_how_radar := [{}], group_datasets_how_polar := [{}],
              datasets := [[[[7]]]], group_datasets_data_what := [[{}]],
              elangles := [some 5], varsnames := none } := by
    rfl
  exact ⟨_, hset, (claim_C9.1 _ _ _ _ _ _ _ _ _ _ _ _ hset).1,
    (claim_C9.1 _ _ _ _ _ _ _ _ _ _ _ _ hset).2.2.1⟩

/-! Claim C2: export loop bounds. -/

theorem range_filter_lt (n m : Nat) :
    (List.range n).filter (fun d => decide (d < m)) = List.range (min n m) := by
  induction n with
  | zero => simp
  | succ j ih =>
    rw [List.range_succ, List.filter_append, ih]
    by_cases hj : j < m
    · have h1 : min j m = j := by omega
      have h2 : min (j + 1) m = j + 1 := by omega
      rw [h1, h2, List.range_succ]
      simp [hj]
    · have h1 : min j m = m := by omega
      have h2 : min (j + 1) m = m := by omega
      rw [h1, h2]
      simp [hj]

theorem exportDatas_ok_inv {h : Pvol} {iG : Nat} :
    ∀ {ds : List Nat} {out : List DataGroup}, exportDatas h iG ds = .ok out →
      out = (ds.filter (fun d => decide (d < (h.datasets.getD iG []).length))).map
        (fun d => ⟨(h.datasets.getD iG []).getD d [],
          if d < (h.group_datasets_data_what.getD iG []).length
          then some (projDataWhat
            ((h.group_datasets_data_what.getD iG []).getD d defaultWhatDset))
          else none⟩) := by
  intro ds
  induction ds with
  | nil =>
    intro out hok
    cases hok
    rfl
  | cons d rest ih =>
    intro out hok
    unfold exportDatas at hok
    obtain ⟨dsetsG, hdg, hok⟩ := exceptBind_ok hok
    have hdval : h.datasets.getD iG [] = dsetsG := by
      rw [List.getD_eq_getElem?_getD, pyGet_ok_inv hdg]
      rfl
    by_cases hlt : d < dsetsG.length
    · rw [dif_pos hlt] at hok
      obtain ⟨wl, hwl, hok⟩ := exceptBind_ok hok
      have hwval : h.group_datasets_data_what.getD iG [] = wl := by
        rw [List.getD_eq_getElem?_getD, pyGet_ok_inv hwl]
        rfl
      obtain ⟨restG, hrest, hok⟩ := exceptBind_ok hok
      cases hok
      have htail := ih hrest
      simp only [hdval, hwval] at htail ⊢
      rw [List.filter_cons, if_pos (decide_eq_true hlt), List.map_cons, ← htail]
      congr 1
      by_cases hw : d < wl.length
      · rw [dif_pos hw]
        have hwg : wl.getD d defaultWhatDset = wl.get ⟨d, hw⟩ := by
          rw [List.getD_eq_getElem _ _ hw]
          rfl
        have hdg2 : dsetsG.getD d [] = dsetsG.get ⟨d, hlt⟩ := by
          rw [List.getD_eq_getElem _ _ hlt]
          rfl
        rw [if_pos hw, hwg, hdg2]
      · rw [dif_neg hw, if_neg hw]
        have hdg2 : dsetsG.getD d [] = dsetsG.get ⟨d, hlt⟩ := by
          rw [List.getD_eq_getElem _ _ hlt]
          rfl
        rw [hdg2]
    · rw [dif_neg hlt] at hok
      have htail := ih hok
      simp only [hdval] at htail ⊢
      rw [List.filter_cons, if_neg (by simpa using hlt), htail]

/-- C2: a successful export writes exactly n_group_dataset - 1 elevation
groups (the last elevation is never written), within each at most
n_datasets - 1 data groups (the last quantity index is never written);
each written group holds min(n_datasets - 1, len(datasets[i])) arrays,
every written array is the corresponding source array, and the matching
what group is written exactly when the data-what list is long enough
(the bounds checks). -/
theorem claim_C2 (h : Pvol) (f : OdimFile) (hex : export_odim h = .ok f) :
    f.elevs.length = h.n_group_dataset - 1
    ∧ (1 ≤ h.n_group_dataset → f.elevs.length < h.n_group_dataset)
    ∧ (∀ g ∈ f.elevs, g.datas.length ≤ h.n_datasets - 1)
    ∧ (∀ (i : Nat) (g : ElevGroup), f.elevs[i]? = some g →
        g.datas.length = min (h.n_datasets - 1) ((h.datasets.getD i []).length)
        ∧ (∀ (d : Nat) (dg : DataGroup), g.datas[d]? = some dg →
            (h.datasets.getD i [])[d]? = some dg.data
            ∧ (dg.what.isSome ↔ d < (h.group_datasets_data_what.getD i []).length))) := by
  unfold export_odim at hex
  obtain ⟨elevs, helevs, hex⟩ := exceptBind_ok hex
  cases hex
  obtain ⟨hlen, hinv⟩ := mapExcept_ok_inv helevs
  have hlen2 : elevs.length = h.n_group_dataset - 1 := by simpa using hlen
  have key : ∀ (i : Nat) (g : ElevGroup), elevs[i]? = some g →
      g.datas.length = min (h.n_datasets - 1) ((h.datasets.getD i []).length)
      ∧ (∀ (d : Nat) (dg : DataGroup), g.datas[d]? = some dg →
          (h.datasets.getD i [])[d]? = some dg.data
          ∧ (dg.what.isSome ↔ d < (h.group_datasets_data_what.getD i []).length)) := by
    intro i g hgi
    have hi : i < h.n_group_dataset - 1 := by
      have h1 := (List.getElem?_eq_some.mp hgi).1
      omega
    obtain ⟨b, hb, hbi⟩ := hinv i i (by simp [hi])
    have hbg : b = g := by
      rw [hgi] at hbi
      cases hbi
      rfl
    subst hbg
    unfold exportElev at hb
    obtain ⟨w, _, hb⟩ := exceptBind_ok hb
    obtain ⟨wh, _, hb⟩ := exceptBind_ok hb
    obtain ⟨hp, _, hb⟩ := exceptBind_ok hb
    obtain ⟨hr, _, hb⟩ := exceptBind_ok hb
    obtain ⟨dsOut, hds, hb⟩ := exceptBind_ok hb
    cases hb
    have hchar := exportDatas_ok_inv hds
    rw [range_filter_lt] at hchar
    constructor
    · rw [hchar]
      simp
    · intro d dg hdg
      rw [hchar] at hdg
      rw [List.getElem?_map] at hdg
      by_cases hdM : d < min (h.n_datasets - 1) ((h.datasets.getD i []).length)
      · rw [List.getElem?_range hdM] at hdg
        simp only [Option.map_some', Option.some.injEq] at hdg
        subst hdg
        have hdL : d < (h.datasets.getD i []).length := lt_of_lt_of_le hdM (min_le_right _ _)
        constructor
        · rw [List.getElem?_eq_getElem hdL]
          show some ((h.datasets.getD i [])[d]) = some ((h.datasets.getD i []).getD d [])
          rw [List.getD_eq_getElem _ _ hdL]
        · by_cases hw : d < (h.group_datasets_data_what.getD i []).length
          · simp [if_pos hw, hw]
          · simp [if_neg hw, hw]
      · have hnone : (List.range (min (h.n_datasets - 1)
            ((h.datasets.getD i []).length)))[d]? = none := by
          apply List.getElem?_eq_none
          simpa using (by omega : min (h.n_datasets - 1) ((h.datasets.getD i []).length) ≤ d)
        rw [hnone] at hdg
        exact absurd hdg (by simp)
  refine ⟨hlen2, ?_, ?_, key⟩
  · intro h1
    show elevs.length < h.n_group_dataset
    omega
  · intro g hg
    obtain ⟨i, hgi⟩ := List.getElem?_of_mem hg
    have := (key i g hgi).1
    omega

/-- Witness for C2 on the concrete two-elevation, two-quantity volume: the
written file has exactly one elevation group and one data group. -/
theorem claim_C2_witness :
    ∃ f : OdimFile, export_odim pvolU = .ok f
      ∧ f.elevs.length = pvolU.n_group_dataset - 1
      ∧ (∀ g ∈ f.elevs, g.datas.length ≤ pvolU.n_datasets - 1) := by
  have hex : export_odim pvolU = .ok
      ⟨pvolU.root_what, pvolU.root_where, pvolU.root_how,
        [⟨projDsetWhat { product := some "SCAN" }, { elangle := some 1 }, {}, {},
          [⟨[[1, 2]], some (projDataWhat (dwU "DBZH"))⟩]⟩]⟩ := by
    rfl
  exact ⟨_, hex, (claim_C2 _ _ hex).1, (claim_C2 _ _ hex).2.2.1⟩

/-! Claim C3: lookup with the Z_VD last-elevation irregularity. -/

theorem pyAttr_ok_inv {α : Type} {nm : String} {v : Option α} {a : α}
    (h : pyAttr nm v = .ok a) : v = some a := by
  cases v with
  | none => exact absurd h (by simp [pyAttr])
  | some b =>
    have : b = a := by simpa [pyAttr] using h
    rw [this]

theorem pyNum_ok_inv {v : Option ℚ} {a : ℚ} (h : pyNum v = .ok a) : v = some a := by
  cases v with
  | none => exact absurd h (by simp [pyNum])
  | some b =>
    have : b = a := by simpa [pyNum] using h
    rw [this]

theorem pyListIndex_mem {α : Type} [DecidableEq α] {l : List α} {a : α} (h : a ∈ l) :
    pyListIndex l a = .ok (pyIdxOf a l) := by
  rw [pyListIndex, if_pos h]

theorem pyIdxOf_getElem {α : Type} [DecidableEq α] :
    ∀ {l : List α}, l.Nodup → ∀ {i : Nat} (hi : i < l.length), pyIdxOf (l.get ⟨i, hi⟩) l = i := by
  intro l
  induction l with
  | nil => intro _ i hi; simp at hi
  | cons b t ih =>
    intro hnd i hi
    cases i with
    | zero =>
      show (if b = b then 0 else pyIdxOf b t + 1) = 0
      rw [if_pos rfl]
    | succ j =>
      have hj : j < t.length := by simpa using hi
      have hget : (b :: t).get ⟨j + 1, hi⟩ = t.get ⟨j, hj⟩ := rfl
      have hbne : ¬ (b = t.get ⟨j, hj⟩) := by
        intro hbe
        have hbmem : b ∈ t := by
          rw [hbe]
          exact List.get_mem t j hj
        exact (List.nodup_cons.mp hnd).1 hbmem
      rw [hget]
      show (if b = t.get ⟨j, hj⟩ then 0 else pyIdxOf (t.get ⟨j, hj⟩) t + 1) = j + 1
      rw [if_neg hbne, ih (List.Nodup.of_cons hnd) hj]

theorem pyIdxOf_lt_length {α : Type} [DecidableEq α] :
    ∀ {l : List α} {a : α}, a ∈ l → pyIdxOf a l < l.length := by
  intro l
  induction l with
  | nil => intro a ha; simp at ha
  | cons b t ih =>
    intro a ha
    by_cases hb : b = a
    · simp [pyIdxOf, hb]
    · have hat : a ∈ t := by
        rcases List.mem_cons.mp ha with h1 | h1
        · exact absurd h1.symm hb
        · exact h1
      have := ih hat
      simp only [pyIdxOf, if_neg hb, List.length_cons]
      omega

theorem getD_pyIdxOf {α : Type} [DecidableEq α] {d : α} :
    ∀ {l : List α} {a : α}, a ∈ l → l.getD (pyIdxOf a l) d = a := by
  intro l
  induction l with
  | nil => intro a ha; simp at ha
  | cons b t ih =>
    intro a ha
    by_cases hb : b = a
    · simp [pyIdxOf, hb]
    · have hat : a ∈ t := by
        rcases List.mem_cons.mp ha with h1 | h1
        · exact absurd h1.symm hb
        · exact h1
      simp only [pyIdxOf, if_neg hb]
      exact ih hat

theorem pyListIndex_not_mem {α : Type} [DecidableEq α] {l : List α} {a : α} (h : a ∉ l) :
    pyListIndex l a = .error (.valueError "x not in list") := by
  rw [pyListIndex, if_neg h]

theorem pyMax_map_some (A : List ℚ) (hA : A ≠ []) :
    pyMax (A.map some) = .ok (some (pyMaxVals A)) := by
  cases A with
  | nil => exact absurd rfl hA
  | cons a t =>
    cases t with
    | nil => rfl
    | cons b s =>
      have hrw : pyMax (some a :: some b :: s.map some) =
          if ((some a :: some b :: s.map some).all (fun v => v.isSome)) = true then
            .ok (some (qListMax ((some a).getD 0)
              ((some b :: s.map some).map (fun v => v.getD 0))))
          else .error .typeError := rfl
      show pyMax (some a :: some b :: s.map some) = .ok (some (pyMaxVals (a :: b :: s)))
      rw [hrw, if_pos (by simp [List.all_eq_true])]
      have hmapid : (some b :: s.map some).map (fun v => v.getD 0) = b :: s := by
        simp [List.map_map, Function.comp_def]
      rw [hmapid]
      rfl

theorem pyIdxOf_map_some {A : List ℚ} (hA : A.Nodup) {i : Nat} (hi : i < A.length) :
    pyIdxOf (some (A.getD i 0)) (A.map some) = i := by
  have hnd : (A.map some).Nodup := hA.map (fun a b hab => Option.some.inj hab)
  have hi2 : i < (A.map some).length := by simpa using hi
  have hget : (A.map some).get ⟨i, hi2⟩ = some (A.getD i 0) := by
    rw [List.get_eq_getElem, List.getElem_map]
    rw [List.getD_eq_getElem _ _ hi]
  rw [← hget]
  exact pyIdxOf_getElem hnd hi2

/-- Evaluation of get_data_by_elangle on a populated hierarchy at elevation
position i and quantity position j, whenever the Z_VD-removal condition
does not fire for the requested angle. -/
theorem get_data_eval (h : Pvol) (vs : List String) (A : List ℚ) (i j : Nat)
    (hvars : h.varsnames = some vs) (hang : h.elangles = A.map some)
    (hAne : A ≠ []) (hA : A.Nodup) (hvnd : vs.Nodup)
    (hi : i < A.length) (hj : j < vs.length)
    (hnc : ¬ (pyMaxVals A = A.getD i 0 ∧ "Z_VD" ∈ vs))
    (l : List Mat) (hl : h.datasets[i]? = some l)
    (raw : Mat) (hraw : l[j]? = some raw)
    (wl : List WhatDsetG) (hwl : h.group_datasets_data_what[i]? = some wl)
    (w : WhatDsetG) (hw : wl[j]? = some w)
    (g o : ℚ) (hg : w.gain = some g) (ho : w.offset = some o) :
    get_data_by_elangle h (A.getD i 0) (vs.getD j "") =
      .ok (raw.map (fun row => row.map (fun v => v * g + o))) := by
  have hmax : pyMax h.elangles = .ok (some (pyMaxVals A)) := by
    rw [hang]
    exact pyMax_map_some A hAne
  have hcand : candidateQuantities vs (some (pyMaxVals A)) (A.getD i 0) = vs := by
    rw [candidateQuantities, if_neg]
    intro hcc
    exact hnc ⟨Option.some.inj hcc.1, hcc.2⟩
  have hjmem : vs.getD j "" ∈ vs := by
    rw [List.getD_eq_getElem _ _ hj]
    exact List.getElem_mem hj
  have hidxq : pyListIndex vs (vs.getD j "") = .ok j := by
    rw [pyListIndex_mem hjmem]
    congr 1
    have hget : vs.getD j "" = vs.get ⟨j, hj⟩ := by
      rw [List.getD_eq_getElem _ _ hj]
      rfl
    rw [hget]
    exact pyIdxOf_getElem hvnd hj
  have himem : (some (A.getD i 0) : Option ℚ) ∈ h.elangles := by
    rw [hang]
    refine List.mem_map_of_mem some ?_
    rw [List.getD_eq_getElem _ _ hi]
    exact List.getElem_mem hi
  have hie : pyListIndex h.elangles (some (A.getD i 0)) = .ok i := by
    rw [hang, pyListIndex_mem (by rw [← hang]; exact himem), pyIdxOf_map_some hA hi]
  simp only [get_data_by_elangle, pyAttr, hvars, hmax, hcand, hidxq, hie, pyGet, hl,
    hraw, hwl, hw, pyNum, hg, ho, Bind.bind, Except.bind]

/-- C3: on a populated hierarchy whose discovered quantity list contains
Z_VD, (i) the candidate list equals varsnames minus Z_VD exactly when the
requested angle is the maximum elevation angle, (ii) the lookup of Z_VD
at the maximum angle fails with the list-index ValueError (NotFound),
(iii) the lookup of Z_VD at any other elevation whose data are present
succeeds and returns raw * gain + offset with that position's
coefficients, and (iv) every successful lookup returns the raw array
decoded as raw * gain + offset with the (elevation, position) what-group
coefficients. -/
theorem claim_C3 (h : Pvol) (vs : List String) (A : List ℚ)
    (hvars : h.varsnames = some vs) (hvnd : vs.Nodup) (hzvd : "Z_VD" ∈ vs)
    (hang : h.elangles = A.map some) (hAne : A ≠ []) (hA : A.Nodup) :
    (∀ a : ℚ, candidateQuantities vs (some (pyMaxVals A)) a = vs.erase "Z_VD" ↔
        a = pyMaxVals A)
    ∧ get_data_by_elangle h (pyMaxVals A) "Z_VD" = .error (.valueError "x not in list")
    ∧ (∀ (i : Nat) (hi : i < A.length), A.get ⟨i, hi⟩ ≠ pyMaxVals A →
        ∀ (l : List Mat) (raw : Mat) (wl : List WhatDsetG) (w : WhatDsetG) (g o : ℚ),
          h.datasets[i]? = some l → l[pyIdxOf "Z_VD" vs]? = some raw →
          h.group_datasets_data_what[i]? = some wl → wl[pyIdxOf "Z_VD" vs]? = some w →
          w.gain = some g → w.offset = some o →
          get_data_by_elangle h (A.get ⟨i, hi⟩) "Z_VD"
            = .ok (raw.map (fun row => row.map (fun v => v * g + o))))
    ∧ (∀ (e : ℚ) (q : String) (out : Mat), get_data_by_elangle h e q = .ok out →
        ∃ (mx : Option ℚ) (iq ie : Nat) (l : List Mat) (raw : Mat)
          (wl : List WhatDsetG) (w : WhatDsetG) (g o : ℚ),
          pyMax h.elangles = .ok mx
          ∧ pyListIndex (candidateQuantities vs mx e) q = .ok iq
          ∧ pyListIndex h.elangles (some e) = .ok ie
          ∧ h.datasets[ie]? = some l ∧ l[iq]? = some raw
          ∧ h.group_datasets_data_what[ie]? = some wl ∧ wl[iq]? = some w
          ∧ w.gain = some g ∧ w.offset = some o
          ∧ out = raw.map (fun row => row.map (fun v => v * g + o))) := by
  have hvpos : 0 < vs.length := List.length_pos.mpr (by rintro rfl; simp at hzvd)
  refine ⟨?_, ?_, ?_, ?_⟩
  · intro a
    constructor
    · intro heq
      by_contra hne
      rw [candidateQuantities, if_neg (fun hcc => hne (Option.some.inj hcc.1).symm)] at heq
      have hlen := List.length_erase_of_mem hzvd
      rw [← heq] at hlen
      omega
    · intro hae
      subst hae
      rw [candidateQuantities, if_pos ⟨rfl, hzvd⟩]
  · have hmax : pyMax h.elangles = .ok (some (pyMaxVals A)) := by
      rw [hang]
      exact pyMax_map_some A hAne
    have hcand : candidateQuantities vs (some (pyMaxVals A)) (pyMaxVals A) = vs.erase "Z_VD" := by
      rw [candidateQuantities, if_pos ⟨rfl, hzvd⟩]
    have hnotm : "Z_VD" ∉ vs.erase "Z_VD" := List.Nodup.not_mem_erase hvnd
    simp only [get_data_by_elangle, pyAttr, hvars, hmax, hcand,
      pyListIndex_not_mem hnotm, Bind.bind, Except.bind]
  · intro i hi hne l raw wl w g o hl hraw hwl hw hg ho
    have hgetd : A.get ⟨i, hi⟩ = A.getD i 0 := by
      rw [List.getD_eq_getElem _ _ hi]
      rfl
    have hzq : ("Z_VD" : String) = vs.getD (pyIdxOf "Z_VD" vs) "" := by
      rw [getD_pyIdxOf hzvd]
    rw [hgetd, hzq]
    refine get_data_eval h vs A i (pyIdxOf "Z_VD" vs) hvars hang hAne hA hvnd hi
      (pyIdxOf_lt_length hzvd) ?_ l hl raw hraw wl hwl w hw g o hg ho
    intro hcc
    rw [← hgetd] at hcc
    exact hne hcc.1.symm
  · intro e q out hok
    unfold get_data_by_elangle at hok
    obtain ⟨vs2, hva, hok⟩ := exceptBind_ok hok
    have hvs2 : vs2 = vs := by
      have := pyAttr_ok_inv hva
      rw [hvars] at this
      exact (Option.some.inj this).symm
    subst hvs2
    obtain ⟨mx, hmx, hok⟩ := exceptBind_ok hok
    obtain ⟨iq, hiq, hok⟩ := exceptBind_ok hok
    obtain ⟨ie, hie, hok⟩ := exceptBind_ok hok
    obtain ⟨l, hl, hok⟩ := exceptBind_ok hok
    obtain ⟨raw, hraw, hok⟩ := exceptBind_ok hok
    obtain ⟨ie2, hie2, hok⟩ := exceptBind_ok hok
    obtain ⟨wl, hwl, hok⟩ := exceptBind_ok hok
    obtain ⟨w, hw, hok⟩ := exceptBind_ok hok
    obtain ⟨o, hoo, hok⟩ := exceptBind_ok hok
    obtain ⟨g, hgg, hfin⟩ := exceptBind_ok hok
    have hie2e : ie2 = ie := by
      rw [hie] at hie2
      exact (Except.ok.inj hie2).symm
    rw [hie2e] at hwl
    have hout : raw.map (fun row => row.map (fun v => v * g + o)) = out :=
      Except.ok.inj hfin
    exact ⟨mx, iq, ie, l, raw, wl, w, g, o, hmx, hiq, hie, pyGet_ok_inv hl,
      pyGet_ok_inv hraw, pyGet_ok_inv hwl, pyGet_ok_inv hw, pyNum_ok_inv hgg,
      pyNum_ok_inv hoo, hout.symm⟩

/-- Witness for C3 on the concrete volume where Z_VD is absent at the
maximum elevation angle: the lookup of Z_VD at the maximum angle fails
with the NotFound-style ValueError. -/
theorem claim_C3_witness :
    (pvolZ.varsnames = some ["DBZH", "Z_VD"]
      ∧ pvolZ.elangles = [(1 : ℚ), 5].map some)
    ∧ get_data_by_elangle pvolZ (pyMaxVals [1, 5]) "Z_VD"
        = .error (.valueError "x not in list") :=
  ⟨⟨rfl, rfl⟩,
    (claim_C3 pvolZ ["DBZH", "Z_VD"] [1, 5] rfl (by decide) (by decide) rfl (by decide)
      (by decide)).2.1⟩

theorem pyAssert_of {c : Prop} [Decidable c] (hc : c) : pyAssert c = .ok () := by
  simp [pyAssert, hc]

theorem pyGet_getD {α : Type} {l : List α} {i : Nat} (d : α) (hi : i < l.length) :
    pyGet l i = .ok (l.getD i d) := by
  simp [pyGet, List.getElem?_eq_getElem hi, List.getD_eq_getElem _ _ hi]

theorem range_map_getD_take {α : Type} (l : List α) (d : α) (m : Nat) (hm : m ≤ l.length) :
    (List.range m).map (fun i => l.getD i d) = l.take m := by
  apply List.ext_getElem?
  intro i
  by_cases hi : i < m
  · have hil : i < l.length := lt_of_lt_of_le hi hm
    rw [List.getElem?_map, List.getElem?_range hi, List.getElem?_take, if_pos hi,
      List.getElem?_eq_getElem hil]
    simp [List.getD_eq_getElem _ _ hil, List.getElem?_eq_getElem hil]
  · have h1 : (List.range m)[i]? = none := by
      rw [List.getElem?_eq_none]
      simpa using Nat.le_of_not_lt hi
    have h2 : (l.take m)[i]? = none := by
      rw [List.getElem?_eq_none]
      simp
      omega
    rw [List.getElem?_map, h1, h2]
    rfl

theorem readDataGroup_proj (arr : Mat) (w0 : WhatDsetG) (q : String)
    (hq : w0.quantity = some q) (hg : w0.gain.isSome) (ho : w0.offset.isSome)
    (hnd : w0.nodata.isSome) (hud : w0.undetect.isSome) :
    readDataGroup ⟨arr, some (projDataWhat w0)⟩ = .ok (arr, projDataWhat w0, q) := by
  obtain ⟨g, hg⟩ := Option.isSome_iff_exists.mp hg
  obtain ⟨o, ho⟩ := Option.isSome_iff_exists.mp ho
  obtain ⟨nd, hnd⟩ := Option.isSome_iff_exists.mp hnd
  obtain ⟨ud, hud⟩ := Option.isSome_iff_exists.mp hud
  simp [readDataGroup, reqAttr, projDataWhat, hq, hg, ho, hnd, hud,
    Bind.bind, Except.bind]

theorem exportDatas_all_ok {h : Pvol} {i : Nat} {row : List Mat} {wrow : List WhatDsetG}
    (hrow : h.datasets[i]? = some row)
    (hwrow : h.group_datasets_data_what[i]? = some wrow) :
    ∀ ds : List Nat, (∀ d ∈ ds, d < row.length ∧ d < wrow.length) →
      exportDatas h i ds =
        .ok (ds.map (fun d =>
          ⟨row.getD d [], some (projDataWhat (wrow.getD d defaultWhatDset))⟩)) := by
  intro ds
  induction ds with
  | nil => intro _; rfl
  | cons d rest ih =>
    intro hall
    obtain ⟨hd, hw⟩ := hall d (by simp)
    have hrest := ih (fun x hx => hall x (by simp [hx]))
    simp only [exportDatas, pyGet, hrow, hwrow, Bind.bind, Except.bind]
    rw [dif_pos hd, dif_pos hw, hrest]
    simp [List.getD_eq_getElem _ _ hd, List.getD_eq_getElem _ _ hw,
      List.getElem?_eq_getElem hd, List.getElem?_eq_getElem hw]

theorem foldl_max_aux {α : Type} (f : α → Nat) (c : Nat) :
    ∀ (l : List α) (a : Nat), (∀ x ∈ l, f x = c) → l ≠ [] →
      l.foldl (fun acc x => max acc (f x)) a = max a c := by
  intro l
  induction l with
  | nil => intro a _ hne; exact absurd rfl hne
  | cons x t ih =>
    intro a hall _
    have hx : f x = c := hall x (by simp)
    cases t with
    | nil => simp [hx]
    | cons y s =>
      rw [List.foldl_cons, ih (max a (f x)) (fun z hz => hall z (by simp [hz])) (by simp),
        hx, max_assoc, max_self]

theorem accQuantities_append : ∀ (qs acc : List String), qs.Nodup → (∀ q ∈ qs, q ∉ acc) →
    accQuantities acc qs = acc ++ qs := by
  intro qs
  induction qs with
  | nil => intro acc _ _; simp [accQuantities]
  | cons q t ih =>
    intro acc hnd hdis
    have hq : q ∉ acc := hdis q (by simp)
    have step : accQuantities acc (q :: t) = accQuantities (acc ++ [q]) t := by
      simp [accQuantities, if_neg hq]
    have hdis2 : ∀ x ∈ t, x ∉ acc ++ [q] := by
      intro x hx
      simp only [List.mem_append, List.mem_singleton]
      rintro (hxa | rfl)
      · exact hdis x (by simp [hx]) hxa
      · exact (List.nodup_cons.mp hnd).1 hx
    rw [step, ih (acc ++ [q]) (List.Nodup.of_cons hnd) hdis2]
    simp

theorem accQuantities_self : ∀ (qs acc : List String), (∀ q ∈ qs, q ∈ acc) →
    accQuantities acc qs = acc := by
  intro qs
  induction qs with
  | nil => intro acc _; rfl
  | cons q t ih =>
    intro acc hsub
    have hq : q ∈ acc := hsub q (by simp)
    have step : accQuantities acc (q :: t) = accQuantities acc t := by
      simp [accQuantities, if_pos hq]
    rw [step, ih acc (fun x hx => hsub x (by simp [hx]))]

theorem foldl_accQ_const (c : List String) (hnd : c.Nodup) :
    ∀ (l : List ElevRead), (∀ r ∈ l, r.quantities = c) → l ≠ [] →
      l.foldl (fun acc r => accQuantities acc r.quantities) [] = c := by
  have stay : ∀ (l : List ElevRead), (∀ r ∈ l, r.quantities = c) →
      l.foldl (fun acc r => accQuantities acc r.quantities) c = c := by
    intro l
    induction l with
    | nil => intro _; rfl
    | cons r t ih =>
      intro hall
      rw [List.foldl_cons, hall r (by simp), accQuantities_self c c (fun q hq => hq),
        ih (fun x hx => hall x (by simp [hx]))]
  intro l hall hne
  cases l with
  | nil => exact absurd rfl hne
  | cons r t =>
    rw [List.foldl_cons, hall r (by simp), accQuantities_append c [] hnd (by simp)]
    simp only [List.nil_append]
    exact stay t (fun x hx => hall x (by simp [hx]))

theorem mapExcept_map {α β γ : Type} (f : β → Except PyErr γ) (g : α → β) :
    ∀ l : List α, mapExcept f (l.map g) = mapExcept (fun a => f (g a)) l := by
  intro l
  induction l with
  | nil => rfl
  | cons a t ih => simp [mapExcept, ih]

theorem exportElev_eval {h : Pvol} {i : Nat}
    (hw : i < h.group_datasets_what.length)
    (hwh : i < h.group_datasets_where.length)
    (hhp : i < h.group_datasets_how_polar.length)
    (hhr : i < h.group_datasets_how_radar.length)
    (hds : i < h.datasets.length)
    (hdw : i < h.group_datasets_data_what.length)
    (hrl : h.n_datasets - 1 ≤ (h.datasets.getD i []).length)
    (hwl : h.n_datasets - 1 ≤ (h.group_datasets_data_what.getD i []).length) :
    exportElev h i = .ok
      ⟨projDsetWhat (h.group_datasets_what.getD i {}),
       h.group_datasets_where.getD i {},
       h.group_datasets_how_polar.getD i {},
       h.group_datasets_how_radar.getD i {},
       (List.range (h.n_datasets - 1)).map (fun d =>
         ⟨(h.datasets.getD i []).getD d [],
          some (projDataWhat ((h.group_datasets_data_what.getD i []).getD d
            defaultWhatDset))⟩)⟩ := by
  have hrow : h.datasets[i]? = some (h.datasets.getD i []) := by
    rw [List.getElem?_eq_getElem hds, List.getD_eq_getElem _ _ hds]
  have hwrow : h.group_datasets_data_what[i]? =
      some (h.group_datasets_data_what.getD i []) := by
    rw [List.getElem?_eq_getElem hdw, List.getD_eq_getElem _ _ hdw]
  have hdata := exportDatas_all_ok hrow hwrow (List.range (h.n_datasets - 1))
    (fun d hd => by
      have := List.mem_range.mp hd
      exact ⟨by omega, by omega⟩)
  simp only [exportElev, pyGet_getD ({} : WhatDsetG) hw,
    pyGet_getD ({} : WherePolarDsetG) hwh, pyGet_getD ({} : HowPolarDsetG) hhp,
    pyGet_getD ({} : HowRadarDsetG) hhr, hdata, Bind.bind, Except.bind]

theorem getElem?_map_range {α : Type} (g : Nat → α) {m i : Nat} (hi : i < m) :
    ((List.range m).map g)[i]? = some (g i) := by
  rw [List.getElem?_map, List.getElem?_range hi]
  rfl

theorem h5KeyOrder_dsetKey_eq_range {m : Nat} (hm : m ≤ 9) :
    h5KeyOrder dsetKey m = List.range m := by
  have hcases : m = 0 ∨ m = 1 ∨ m = 2 ∨ m = 3 ∨ m = 4 ∨ m = 5 ∨ m = 6 ∨ m = 7
      ∨ m = 8 ∨ m = 9 := by omega
  rcases hcases with rfl | rfl | rfl | rfl | rfl | rfl | rfl | rfl | rfl | rfl <;> decide

theorem h5KeyOrder_dataKey_eq_range {m : Nat} (hm : m ≤ 9) :
    h5KeyOrder dataKey m = List.range m := by
  have hcases : m = 0 ∨ m = 1 ∨ m = 2 ∨ m = 3 ∨ m = 4 ∨ m = 5 ∨ m = 6 ∨ m = 7
      ∨ m = 8 ∨ m = 9 := by omega
  rcases hcases with rfl | rfl | rfl | rfl | rfl | rfl | rfl | rfl | rfl | rfl <;> decide

theorem readElev_eval {row : List Mat} {wrow : List WhatDsetG} {qs : List String}
    (wG : WhatDsetG) (whG : WherePolarDsetG) (hpG : HowPolarDsetG) (hrG : HowRadarDsetG)
    (m : Nat) (hm : 0 < m) (hm9 : m ≤ 9) (hmw : m ≤ wrow.length) (hmq : m ≤ qs.length)
    (hq : wrow.map (fun w => w.quantity) = qs.map some)
    (hfive : ∀ w ∈ wrow,
      w.gain.isSome ∧ w.offset.isSome ∧ w.nodata.isSome ∧ w.undetect.isSome) :
    readElev ⟨wG, whG, hpG, hrG,
        (List.range m).map (fun d =>
          ⟨row.getD d [], some (projDataWhat (wrow.getD d defaultWhatDset))⟩)⟩ =
      .ok ⟨⟨wG.product, none, none, wG.startdate, wG.starttime, wG.enddate, wG.endtime,
             some 1, some 0, none, none⟩,
           whG, hrG, hpG,
           (List.range m).map (fun d => row.getD d []),
           (List.range m).map (fun d => projDataWhat (wrow.getD d defaultWhatDset)),
           (List.range m).map (fun d => qs.getD d "")⟩ := by
  have hstep : ∀ d ∈ List.range m,
      readDataGroup ⟨row.getD d [], some (projDataWhat (wrow.getD d defaultWhatDset))⟩ =
        .ok (row.getD d [], projDataWhat (wrow.getD d defaultWhatDset), qs.getD d "") := by
    intro d hd
    have hdm : d < m := List.mem_range.mp hd
    have hdw : d < wrow.length := lt_of_lt_of_le hdm hmw
    have hdq : d < qs.length := lt_of_lt_of_le hdm hmq
    have hw0 : wrow.getD d defaultWhatDset = wrow.get ⟨d, hdw⟩ := by
      rw [List.getD_eq_getElem _ _ hdw]
      rfl
    have hquant : (wrow.get ⟨d, hdw⟩).quantity = some (qs.getD d "") := by
      have hcg := congrArg (fun l => l[d]?) hq
      simp only [List.getElem?_map, List.getElem?_eq_getElem hdw,
        List.getElem?_eq_getElem hdq, Option.map_some'] at hcg
      rw [List.getD_eq_getElem _ _ hdq]
      simpa using hcg
    obtain ⟨hg, ho, hnd, hud⟩ := hfive (wrow.get ⟨d, hdw⟩) (List.get_mem wrow d hdw)
    rw [hw0]
    exact readDataGroup_proj (row.getD d []) (wrow.get ⟨d, hdw⟩) (qs.getD d "")
      hquant hg ho hnd hud
  have hlen2 : ((List.range m).map (fun d =>
      (⟨row.getD d [], some (projDataWhat (wrow.getD d defaultWhatDset))⟩ :
        DataGroup))).length = m := by
    simp
  have hord : h5KeyOrder dataKey ((List.range m).map (fun d =>
      (⟨row.getD d [], some (projDataWhat (wrow.getD d defaultWhatDset))⟩ :
        DataGroup))).length = List.range m := by
    rw [hlen2]
    exact h5KeyOrder_dataKey_eq_range hm9
  have htr : mapExcept (fun d => do
      let dg ← pyGet ((List.range m).map (fun d =>
        (⟨row.getD d [], some (projDataWhat (wrow.getD d defaultWhatDset))⟩ :
          DataGroup))) d
      readDataGroup dg)
      (h5KeyOrder dataKey ((List.range m).map (fun d =>
        (⟨row.getD d [], some (projDataWhat (wrow.getD d defaultWhatDset))⟩ :
          DataGroup))).length) =
      .ok ((List.range m).map (fun d =>
        (row.getD d [], projDataWhat (wrow.getD d defaultWhatDset), qs.getD d ""))) := by
    rw [hord]
    refine mapExcept_ok ?_
    intro d hd
    have hdm : d < m := List.mem_range.mp hd
    have hpg : pyGet ((List.range m).map (fun d =>
        (⟨row.getD d [], some (projDataWhat (wrow.getD d defaultWhatDset))⟩ :
          DataGroup))) d =
        .ok ⟨row.getD d [], some (projDataWhat (wrow.getD d defaultWhatDset))⟩ := by
      simp [pyGet, getElem?_map_range _ hdm]
    simp only [Bind.bind, Except.bind, hpg, hstep d hd]
  have hlen : ((List.range m).map (fun d =>
      ((row.getD d [], projDataWhat (wrow.getD d defaultWhatDset), qs.getD d "") :
        Mat × WhatDsetG × String))).map (fun x => x.1) ≠ [] := by
    simp [List.map_map]
    omega
  simp only [Bind.bind, Except.bind] at htr
  simp only [readElev, Bind.bind, Except.bind, htr]
  rw [if_neg (by simpa [List.length_eq_zero] using hlen)]
  simp [List.map_map, Function.comp_def, defaultWhatDset]

theorem getD_map_range {α : Type} (g : Nat → α) (m i : Nat) (hi : i < m) (d : α) :
    ((List.range m).map g).getD i d = g i := by
  have hlen : i < ((List.range m).map g).length := by simpa using hi
  rw [List.getD_eq_getElem _ _ hlen]
  simp

theorem getD_take {α : Type} (l : List α) (m i : Nat) (d : α)
    (him : i < m) (hil : i < l.length) :
    (l.take m).getD i d = l.getD i d := by
  have h1 : i < (l.take m).length := by
    simp
    omega
  rw [List.getD_eq_getElem _ _ h1, List.getD_eq_getElem _ _ hil]
  simp [List.getElem_take]

theorem setistance_eval (rw_ : OdimWhatG) (rwh : OdimWhereG) (rh : OdimHowG)
    (n k : Nat) (gw : List WhatDsetG) (gwh : List WherePolarDsetG)
    (ghr : List HowRadarDsetG) (ghp : List HowPolarDsetG)
    (ds : List (List Mat)) (gdw : List (List WhatDsetG))
    (h1 : ds.length = n) (h2 : gdw.length = n) (h3 : n ≤ gwh.length) :
    setistance rw_ rwh rh n k gw gwh ghr ghp ds gdw = .ok
      { root_what := rw_, root_where := rwh, root_how := rh,
        n_group_dataset := n, n_datasets := k, group_datasets_what := gw,
        group_datasets_where := gwh, group_datasets_how_radar := ghr,
        group_datasets_how_polar := ghp, datasets := ds,
        group_datasets_data_what := gdw,
        elangles := (List.range n).map (fun i => (gwh.getD i {}).elangle),
        varsnames := none } := by
  have hmap : mapExcept (fun i => do
      let w ← pyGet gwh i
      .ok w.elangle) (List.range n) =
    .ok ((List.range n).map (fun i => (gwh.getD i {}).elangle)) :=
    mapExcept_ok (fun i hi => by
      have hin : i < n := List.mem_range.mp hi
      have hg : pyGet gwh i = .ok (gwh.getD i {}) :=
        pyGet_getD {} (lt_of_lt_of_le hin h3)
      simp [hg, Bind.bind, Except.bind])
  simp only [Bind.bind, Except.bind] at hmap
  simp only [setistance, pyAssert_of h1, pyAssert_of h2, Bind.bind, Except.bind, hmap]

/-- C1 (amended): writing a fully populated polar-volume hierarchy with
export_odim and reading the file back with read_odim round-trips the
elevation-angle sequence, the quantity-name list and the
gain/offset-decoded data arrays, modulo the write-loop off-by-one, only
when at most 9 elevation groups and 9 data groups per elevation are
written (n_group_dataset ≤ 10 and n_datasets ≤ 10), so that h5py's
lexicographic key enumeration coincides with numeric order: then the read
hierarchy holds the first n_group_dataset - 1 elevation angles and the
first n_datasets - 1 quantity names, and on every surviving
(elevation, quantity) pair both hierarchies decode to the identical
array.  Beyond ten groups the key order scrambles the sequences (see the
counterexample). -/
theorem claim_C1 (h : Pvol) (qs : List String) (A : List ℚ)
    (hn : h.n_group_dataset = A.length)
    (hk : h.n_datasets = qs.length)
    (hn2 : 2 ≤ h.n_group_dataset) (hk2 : 2 ≤ h.n_datasets)
    (hn10 : h.n_group_dataset ≤ 10) (hk10 : h.n_datasets ≤ 10)
    (hvars : h.varsnames = some qs) (hqnd : qs.Nodup) (hnz : "Z_VD" ∉ qs)
    (hang : h.elangles = A.map some) (hA : A.Nodup)
    (hwl : h.group_datasets_what.length = h.n_group_dataset)
    (hwhere : h.group_datasets_where.map (fun w => w.elangle) = A.map some)
    (hhp : h.group_datasets_how_polar.length = h.n_group_dataset)
    (hhr : h.group_datasets_how_radar.length = h.n_group_dataset)
    (hdsl : h.datasets.length = h.n_group_dataset)
    (hdwl : h.group_datasets_data_what.length = h.n_group_dataset)
    (hrowlen : ∀ row ∈ h.datasets, row.length = h.n_datasets)
    (hwrowq : ∀ wrow ∈ h.group_datasets_data_what,
      wrow.map (fun w => w.quantity) = qs.map some)
    (hfive : ∀ wrow ∈ h.group_datasets_data_what, ∀ w ∈ wrow,
      w.gain.isSome ∧ w.offset.isSome ∧ w.nodata.isSome ∧ w.undetect.isSome)
    (hrobj : h.root_what.obj.isSome) (hrver : h.root_what.version.isSome)
    (hrdat : h.root_what.date.isSome) (hrtim : h.root_what.time.isSome)
    (hrsrc : h.root_what.source.isSome)
    (hrlon : h.root_where.lon.isSome) (hrlat : h.root_where.lat.isSome)
    (hrhgt : h.root_where.height.isSome) :
    ∃ (f : OdimFile) (h2 : Pvol),
      export_odim h = .ok f ∧ read_odim f = .ok h2
      ∧ h2.elangles = h.elangles.take (h.n_group_dataset - 1)
      ∧ h2.varsnames = some (qs.take (h.n_datasets - 1))
      ∧ ∀ i j : Nat, i < h.n_group_dataset - 1 → j < h.n_datasets - 1 →
          ∃ out : Mat,
            get_data_by_elangle h (A.getD i 0) (qs.getD j "") = .ok out
            ∧ get_data_by_elangle h2 (A.getD i 0) (qs.getD j "") = .ok out := by
  have hAlen : 2 ≤ A.length := by omega
  have hqlen : 2 ≤ qs.length := by omega
  have hAne : A ≠ [] := by
    intro h0
    rw [h0] at hAlen
    simp at hAlen
  have hgwhl : h.group_datasets_where.length = A.length := by
    simpa using congrArg List.length hwhere
  have hrowlen2 : ∀ i, i < h.n_group_dataset →
      (h.datasets.getD i []).length = h.n_datasets := by
    intro i hi
    have hmem : h.datasets.getD i [] ∈ h.datasets := by
      rw [List.getD_eq_getElem _ _ (by rw [hdsl]; exact hi)]
      exact List.getElem_mem _
    exact hrowlen _ hmem
  have hwrow2 : ∀ i, i < h.n_group_dataset →
      (h.group_datasets_data_what.getD i []).map (fun w => w.quantity) = qs.map some := by
    intro i hi
    have hmem : h.group_datasets_data_what.getD i [] ∈ h.group_datasets_data_what := by
      rw [List.getD_eq_getElem _ _ (by rw [hdwl]; exact hi)]
      exact List.getElem_mem _
    exact hwrowq _ hmem
  have hwrowlen : ∀ i, i < h.n_group_dataset →
      (h.group_datasets_data_what.getD i []).length = h.n_datasets := by
    intro i hi
    have h1 := congrArg List.length (hwrow2 i hi)
    simp only [List.length_map] at h1
    rw [h1, hk]
  have hfive2 : ∀ i, i < h.n_group_dataset →
      ∀ w ∈ h.group_datasets_data_what.getD i [],
        w.gain.isSome ∧ w.offset.isSome ∧ w.nodata.isSome ∧ w.undetect.isSome := by
    intro i hi
    have hmem : h.group_datasets_data_what.getD i [] ∈ h.group_datasets_data_what := by
      rw [List.getD_eq_getElem _ _ (by rw [hdwl]; exact hi)]
      exact List.getElem_mem _
    exact hfive _ hmem
  set gE : Nat → ElevGroup := fun i =>
    ⟨projDsetWhat (h.group_datasets_what.getD i {}),
     h.group_datasets_where.getD i {},
     h.group_datasets_how_polar.getD i {},
     h.group_datasets_how_radar.getD i {},
     (List.range (h.n_datasets - 1)).map (fun d =>
       ⟨(h.datasets.getD i []).getD d [],
        some (projDataWhat ((h.group_datasets_data_what.getD i []).getD d
          defaultWhatDset))⟩)⟩ with hgE
  set rE : Nat → ElevRead := fun i =>
    ⟨⟨(projDsetWhat (h.group_datasets_what.getD i {})).product, none, none,
      (projDsetWhat (h.group_datasets_what.getD i {})).startdate,
      (projDsetWhat (h.group_datasets_what.getD i {})).starttime,
      (projDsetWhat (h.group_datasets_what.getD i {})).enddate,
      (projDsetWhat (h.group_datasets_what.getD i {})).endtime,
      some 1, some 0, none, none⟩,
     h.group_datasets_where.getD i {},
     h.group_datasets_how_radar.getD i {},
     h.group_datasets_how_polar.getD i {},
     (List.range (h.n_datasets - 1)).map (fun d => (h.datasets.getD i []).getD d []),
     (List.range (h.n_datasets - 1)).map (fun d =>
       projDataWhat ((h.group_datasets_data_what.getD i []).getD d defaultWhatDset)),
     (List.range (h.n_datasets - 1)).map (fun d => qs.getD d "")⟩ with hrE
  have helevs : mapExcept (exportElev h) (List.range (h.n_group_dataset - 1)) =
      .ok ((List.range (h.n_group_dataset - 1)).map gE) := by
    refine mapExcept_ok ?_
    intro i hi
    have hin : i < h.n_group_dataset - 1 := List.mem_range.mp hi
    have hiN : i < h.n_group_dataset := by omega
    rw [hgE]
    refine exportElev_eval ?_ ?_ ?_ ?_ ?_ ?_ ?_ ?_
    · rw [hwl]; exact hiN
    · rw [hgwhl, ← hn]; exact hiN
    · rw [hhp]; exact hiN
    · rw [hhr]; exact hiN
    · rw [hdsl]; exact hiN
    · rw [hdwl]; exact hiN
    · rw [hrowlen2 i hiN]; omega
    · rw [hwrowlen i hiN]; omega
  have hex : export_odim h =
      .ok ⟨h.root_what, h.root_where, h.root_how,
        (List.range (h.n_group_dataset - 1)).map gE⟩ := by
    simp only [export_odim, helevs, Bind.bind, Except.bind]
  obtain ⟨obj, hobj⟩ := Option.isSome_iff_exists.mp hrobj
  obtain ⟨ver, hver⟩ := Option.isSome_iff_exists.mp hrver
  obtain ⟨dat, hdat⟩ := Option.isSome_iff_exists.mp hrdat
  obtain ⟨tim, htim⟩ := Option.isSome_iff_exists.mp hrtim
  obtain ⟨src, hsrc⟩ := Option.isSome_iff_exists.mp hrsrc
  obtain ⟨lonv, hlonv⟩ := Option.isSome_iff_exists.mp hrlon
  obtain ⟨latv, hlatv⟩ := Option.isSome_iff_exists.mp hrlat
  obtain ⟨hei, hhei⟩ := Option.isSome_iff_exists.mp hrhgt
  have hreadstep : ∀ i ∈ List.range (h.n_group_dataset - 1),
      readElev (gE i) = .ok (rE i) := by
    intro i hi
    have hin : i < h.n_group_dataset - 1 := List.mem_range.mp hi
    have hiN : i < h.n_group_dataset := by omega
    rw [hgE, hrE]
    refine readElev_eval _ _ _ _ (h.n_datasets - 1) (by omega) (by omega) ?_ ?_
      (hwrow2 i hiN) (hfive2 i hiN)
    · rw [hwrowlen i hiN]; omega
    · rw [← hk]; omega
  have hordD : h5KeyOrder dsetKey ((List.range (h.n_group_dataset - 1)).map gE).length =
      List.range (h.n_group_dataset - 1) := by
    rw [List.length_map, List.length_range]
    exact h5KeyOrder_dsetKey_eq_range (by omega)
  have hreads : mapExcept (fun i => do
      let g ← pyGet ((List.range (h.n_group_dataset - 1)).map gE) i
      readElev g)
      (h5KeyOrder dsetKey ((List.range (h.n_group_dataset - 1)).map gE).length) =
      .ok ((List.range (h.n_group_dataset - 1)).map rE) := by
    rw [hordD]
    refine mapExcept_ok ?_
    intro i hi
    have hin : i < h.n_group_dataset - 1 := List.mem_range.mp hi
    have hpg : pyGet ((List.range (h.n_group_dataset - 1)).map gE) i = .ok (gE i) := by
      simp [pyGet, getElem?_map_range _ hin]
    simp only [Bind.bind, Except.bind, hpg, hreadstep i hi]
  simp only [Bind.bind, Except.bind, List.length_map, List.length_range] at hreads
  have hmatslen : ∀ r ∈ (List.range (h.n_group_dataset - 1)).map rE,
      r.mats.length = h.n_datasets - 1 := by
    intro r hr
    obtain ⟨i, hi, rfl⟩ := List.mem_map.mp hr
    simp [hrE]
  have hrne : (List.range (h.n_group_dataset - 1)).map rE ≠ [] := by
    intro h0
    have := congrArg List.length h0
    simp at this
    omega
  have hnmax : ((List.range (h.n_group_dataset - 1)).map rE).foldl
      (fun acc r => max acc r.mats.length) 0 = h.n_datasets - 1 := by
    have := foldl_max_aux (fun r => r.mats.length) (h.n_datasets - 1)
      ((List.range (h.n_group_dataset - 1)).map rE) 0 hmatslen hrne
    simpa using this
  have hquants : ∀ r ∈ (List.range (h.n_group_dataset - 1)).map rE,
      r.quantities = (List.range (h.n_datasets - 1)).map (fun d => qs.getD d "") := by
    intro r hr
    obtain ⟨i, hi, rfl⟩ := List.mem_map.mp hr
    simp [hrE]
  have hqs1 : (List.range (h.n_datasets - 1)).map (fun d => qs.getD d "") =
      qs.take (h.n_datasets - 1) :=
    range_map_getD_take qs "" _ (by omega)
  have hqnd2 : ((List.range (h.n_datasets - 1)).map (fun d => qs.getD d "")).Nodup := by
    rw [hqs1]
    exact hqnd.sublist (List.take_sublist _ _)
  have hallq : ((List.range (h.n_group_dataset - 1)).map rE).foldl
      (fun acc r => accQuantities acc r.quantities) [] =
      (List.range (h.n_datasets - 1)).map (fun d => qs.getD d "") :=
    foldl_accQ_const _ hqnd2 _ hquants hrne
  have hset := setistance_eval
    ({ obj := some obj, version := some ver, date := some dat, time := some tim,
       source := some src } : OdimWhatG)
    ({ lon := some lonv, lat := some latv, height := some hei } : OdimWhereG)
    h.root_how
    (h.n_group_dataset - 1) (h.n_datasets - 1)
    (((List.range (h.n_group_dataset - 1)).map rE).map (fun r => r.whatD))
    (((List.range (h.n_group_dataset - 1)).map rE).map (fun r => r.whereD))
    (((List.range (h.n_group_dataset - 1)).map rE).map (fun r => r.howRadarD))
    (((List.range (h.n_group_dataset - 1)).map rE).map (fun r => r.howPolarD))
    (((List.range (h.n_group_dataset - 1)).map rE).map (fun r => r.mats))
    (((List.range (h.n_group_dataset - 1)).map rE).map (fun r => r.dataWhats))
    (by simp) (by simp) (by simp)
  set pv : Pvol :=
    { root_what := { obj := some obj, version := some ver, date := some dat,
                     time := some tim, source := some src },
      root_where := { lon := some lonv, lat := some latv, height := some hei },
      root_how := h.root_how,
      n_group_dataset := h.n_group_dataset - 1,
      n_datasets := h.n_datasets - 1,
      group_datasets_what :=
        ((List.range (h.n_group_dataset - 1)).map rE).map (fun r => r.whatD),
      group_datasets_where :=
        ((List.range (h.n_group_dataset - 1)).map rE).map (fun r => r.whereD),
      group_datasets_how_radar :=
        ((List.range (h.n_group_dataset - 1)).map rE).map (fun r => r.howRadarD),
      group_datasets_how_polar :=
        ((List.range (h.n_group_dataset - 1)).map rE).map (fun r => r.howPolarD),
      datasets := ((List.range (h.n_group_dataset - 1)).map rE).map (fun r => r.mats),
      group_datasets_data_what :=
        ((List.range (h.n_group_dataset - 1)).map rE).map (fun r => r.dataWhats),
      elangles := (List.range (h.n_group_dataset - 1)).map (fun i =>
        (((((List.range (h.n_group_dataset - 1)).map rE).map
          (fun r => r.whereD) : List WherePolarDsetG)).getD i {}).elangle),
      varsnames := some ((List.range (h.n_datasets - 1)).map (fun d => qs.getD d "")) }
    with hpv
  have hread : read_odim ⟨h.root_what, h.root_where, h.root_how,
      (List.range (h.n_group_dataset - 1)).map gE⟩ = .ok pv := by
    rw [hpv]
    simp only [read_odim, hobj, hver, hdat, htim, hsrc, hlonv, hlatv, hhei, reqAttr,
      hreads, List.length_map, List.length_range, hnmax, hallq, hset,
      Bind.bind, Except.bind]
  have hwherecomp :
      ((List.range (h.n_group_dataset - 1)).map rE).map (fun r => r.whereD) =
      (List.range (h.n_group_dataset - 1)).map
        (fun i => h.group_datasets_where.getD i {}) := by
    rw [List.map_map]
    exact List.map_congr_left (fun i _ => by simp [Function.comp_def, hrE])
  have hdscomp :
      ((List.range (h.n_group_dataset - 1)).map rE).map (fun r => r.mats) =
      (List.range (h.n_group_dataset - 1)).map (fun i =>
        (List.range (h.n_datasets - 1)).map
          (fun d => (h.datasets.getD i []).getD d [])) := by
    rw [List.map_map]
    exact List.map_congr_left (fun i _ => by simp [Function.comp_def, hrE])
  have hdwcomp :
      ((List.range (h.n_group_dataset - 1)).map rE).map (fun r => r.dataWhats) =
      (List.range (h.n_group_dataset - 1)).map (fun i =>
        (List.range (h.n_datasets - 1)).map (fun d =>
          projDataWhat ((h.group_datasets_data_what.getD i []).getD d
            defaultWhatDset))) := by
    rw [List.map_map]
    exact List.map_congr_left (fun i _ => by simp [Function.comp_def, hrE])
  have helang2 : (List.range (h.n_group_dataset - 1)).map (fun i =>
      (((((List.range (h.n_group_dataset - 1)).map rE).map
        (fun r => r.whereD) : List WherePolarDsetG)).getD i {}).elangle)
      = h.elangles.take (h.n_group_dataset - 1) := by
    rw [hwherecomp]
    have hstep2 : ∀ i ∈ List.range (h.n_group_dataset - 1),
        (((List.range (h.n_group_dataset - 1)).map
          (fun i => h.group_datasets_where.getD i {})).getD i {}).elangle
        = (A.map some).getD i none := by
      intro i hi
      have hin : i < h.n_group_dataset - 1 := List.mem_range.mp hi
      rw [getD_map_range _ _ _ hin]
      have hiw : i < h.group_datasets_where.length := by rw [hgwhl]; omega
      have hiA : i < A.length := by omega
      have h1 := congrArg (fun l => l[i]?) hwhere
      simp only [List.getElem?_map, List.getElem?_eq_getElem hiw,
        List.getElem?_eq_getElem hiA, Option.map_some'] at h1
      have h2 : i < (A.map some).length := by simpa using hiA
      rw [List.getD_eq_getElem _ _ hiw, List.getD_eq_getElem _ _ h2]
      have h3 := Option.some.inj h1
      rw [List.getElem_map]
      exact h3
    rw [List.map_congr_left hstep2,
      range_map_getD_take (A.map some) none _ (by rw [List.length_map]; omega), hang]
  have hprop1 : pv.elangles = h.elangles.take (h.n_group_dataset - 1) := by
    rw [hpv]
    exact helang2
  have hprop2 : pv.varsnames = some (qs.take (h.n_datasets - 1)) := by
    rw [hpv]
    show some ((List.range (h.n_datasets - 1)).map (fun d => qs.getD d "")) = _
    rw [hqs1]
  refine ⟨⟨h.root_what, h.root_where, h.root_how,
    (List.range (h.n_group_dataset - 1)).map gE⟩, pv, hex, hread, hprop1, hprop2, ?_⟩
  intro i j hi hj
  have hiN : i < h.n_group_dataset := by omega
  have hiA : i < A.length := by omega
  have hjk : j < h.n_datasets := by omega
  have hjq : j < qs.length := by omega
  have hi' : i < h.datasets.length := by rw [hdsl]; exact hiN
  have hld : h.datasets[i]? = some (h.datasets.getD i []) := by
    rw [List.getElem?_eq_getElem hi', List.getD_eq_getElem _ _ hi']
  have hj' : j < (h.datasets.getD i []).length := by rw [hrowlen2 i hiN]; exact hjk
  have hraw : (h.datasets.getD i [])[j]? = some ((h.datasets.getD i []).getD j []) := by
    rw [List.getElem?_eq_getElem hj', List.getD_eq_getElem _ _ hj']
  have hwi' : i < h.group_datasets_data_what.length := by rw [hdwl]; exact hiN
  have hwld : h.group_datasets_data_what[i]? =
      some (h.group_datasets_data_what.getD i []) := by
    rw [List.getElem?_eq_getElem hwi', List.getD_eq_getElem _ _ hwi']
  have hwj' : j < (h.group_datasets_data_what.getD i []).length := by
    rw [hwrowlen i hiN]; exact hjk
  have hww : (h.group_datasets_data_what.getD i [])[j]? =
      some ((h.group_datasets_data_what.getD i []).getD j defaultWhatDset) := by
    rw [List.getElem?_eq_getElem hwj', List.getD_eq_getElem _ _ hwj']
  have hwmem : (h.group_datasets_data_what.getD i []).getD j defaultWhatDset ∈
      h.group_datasets_data_what.getD i [] := by
    rw [List.getD_eq_getElem _ _ hwj']
    exact List.getElem_mem _
  obtain ⟨hgs, hos, _, _⟩ := hfive2 i hiN _ hwmem
  obtain ⟨g, hg⟩ := Option.isSome_iff_exists.mp hgs
  obtain ⟨o, ho⟩ := Option.isSome_iff_exists.mp hos
  have hnc : ¬ (pyMaxVals A = A.getD i 0 ∧ "Z_VD" ∈ qs) := fun hc => hnz hc.2
  have hH := get_data_eval h qs A i j hvars hang hAne hA hqnd hiA hjq hnc
    _ hld _ hraw _ hwld _ hww g o hg ho
  have h2ang : pv.elangles = (A.take (h.n_group_dataset - 1)).map some := by
    rw [hprop1, hang]
    exact (List.map_take some A _).symm
  have hAne2 : A.take (h.n_group_dataset - 1) ≠ [] := by
    refine List.length_pos.mp ?_
    simp only [List.length_take]
    omega
  have hA2 : (A.take (h.n_group_dataset - 1)).Nodup :=
    hA.sublist (List.take_sublist _ _)
  have hqnd3 : (qs.take (h.n_datasets - 1)).Nodup :=
    hqnd.sublist (List.take_sublist _ _)
  have hi2 : i < (A.take (h.n_group_dataset - 1)).length := by
    simp only [List.length_take]
    omega
  have hj2 : j < (qs.take (h.n_datasets - 1)).length := by
    simp only [List.length_take]
    omega
  have hnc2 : ¬ (pyMaxVals (A.take (h.n_group_dataset - 1)) =
      (A.take (h.n_group_dataset - 1)).getD i 0
      ∧ "Z_VD" ∈ qs.take (h.n_datasets - 1)) :=
    fun hc => hnz ((List.take_sublist _ _).subset hc.2)
  have hld2 : pv.datasets[i]? = some ((List.range (h.n_datasets - 1)).map
      (fun d => (h.datasets.getD i []).getD d [])) := by
    rw [hpv]
    show (((List.range (h.n_group_dataset - 1)).map rE).map (fun r => r.mats))[i]? = _
    rw [hdscomp]
    exact getElem?_map_range _ hi
  have hraw2 : ((List.range (h.n_datasets - 1)).map
      (fun d => (h.datasets.getD i []).getD d []))[j]? =
      some ((h.datasets.getD i []).getD j []) := getElem?_map_range _ hj
  have hwld2 : pv.group_datasets_data_what[i]? =
      some ((List.range (h.n_datasets - 1)).map (fun d =>
        projDataWhat ((h.group_datasets_data_what.getD i []).getD d
          defaultWhatDset))) := by
    rw [hpv]
    show (((List.range (h.n_group_dataset - 1)).map rE).map (fun r => r.dataWhats))[i]? = _
    rw [hdwcomp]
    exact getElem?_map_range _ hi
  have hww2 : ((List.range (h.n_datasets - 1)).map (fun d =>
      projDataWhat ((h.group_datasets_data_what.getD i []).getD d
        defaultWhatDset)))[j]? =
      some (projDataWhat ((h.group_datasets_data_what.getD i []).getD j
        defaultWhatDset)) := getElem?_map_range _ hj
  have hg2 : (projDataWhat ((h.group_datasets_data_what.getD i []).getD j
      defaultWhatDset)).gain = some g := hg
  have ho2 : (projDataWhat ((h.group_datasets_data_what.getD i []).getD j
      defaultWhatDset)).offset = some o := ho
  have hH2 := get_data_eval pv (qs.take (h.n_datasets - 1))
    (A.take (h.n_group_dataset - 1)) i j hprop2 h2ang hAne2 hA2 hqnd3 hi2 hj2 hnc2
    _ hld2 _ hraw2 _ hwld2 _ hww2 g o hg2 ho2
  rw [getD_take A (h.n_group_dataset - 1) i 0 hi hiA,
    getD_take qs (h.n_datasets - 1) j "" hj hjq] at hH2
  exact ⟨_, hH, hH2⟩

/-- Witness for C1 on the concrete fully populated two-elevation,
two-quantity volume. -/
theorem claim_C1_witness :
    ∃ (f : OdimFile) (h2 : Pvol),
      export_odim pvolU = .ok f ∧ read_odim f = .ok h2
      ∧ h2.elangles = pvolU.elangles.take (pvolU.n_group_dataset - 1)
      ∧ h2.varsnames = some (["DBZH", "TH"].take (pvolU.n_datasets - 1))
      ∧ ∀ i j : Nat, i < pvolU.n_group_dataset - 1 → j < pvolU.n_datasets - 1 →
          ∃ out : Mat,
            get_data_by_elangle pvolU (([1, 5] : List ℚ).getD i 0)
              (["DBZH", "TH"].getD j "") = .ok out
            ∧ get_data_by_elangle h2 (([1, 5] : List ℚ).getD i 0)
              (["DBZH", "TH"].getD j "") = .ok out :=
  claim_C1 pvolU ["DBZH", "TH"] [1, 5] (by decide) (by decide) (by decide) (by decide)
    (by decide) (by decide) (by decide) (by decide) (by decide) (by decide) (by decide)
    (by decide) (by decide) (by decide) (by decide) (by decide) (by decide) (by decide)
    (by decide) (by decide) (by decide) (by decide) (by decide) (by decide) (by decide)
    (by decide) (by decide) (by decide)

/-- Counterexample to C1 as originally stated: on the fully populated
twelve-elevation volume the export/read round-trip succeeds, but h5py's
lexicographic key enumeration returns the eleven written groups in the
order dataset1, dataset10, dataset11, dataset2, ..., dataset9, so the
read-back elangles sequence is the scrambled [1, 10, 11, 2, ..., 9] and
not the truncation [1, 2, ..., 11] of the original sequence that the
claim promises. -/
theorem claim_C1_counterexample :
    (export_odim pvolL >>= read_odim).map (fun h2 => h2.elangles) =
      .ok (([1, 10, 11, 2, 3, 4, 5, 6, 7, 8, 9] : List ℚ).map some)
    ∧ pvolL.elangles.take (pvolL.n_group_dataset - 1) =
      ([1, 2, 3, 4, 5, 6, 7, 8, 9, 10, 11] : List ℚ).map some
    ∧ ([1, 10, 11, 2, 3, 4, 5, 6, 7, 8, 9] : List ℚ).map some ≠
      ([1, 2, 3, 4, 5, 6, 7, 8, 9, 10, 11] : List ℚ).map some := by
  refine ⟨by decide, by decide, by decide⟩

end SimcRadar
